import Mathlib

/-!
Verification development for the `scheduledtasks` repository: a cron-driven
task orchestrator (TaskScheduler.ts, DatabaseManager.ts,
MonitoredScheduledTask.ts, dateTimeConvertor.ts).

The TypeScript source is shallowly embedded: the SQLite store becomes a pure
record of row lists, every store operation becomes a pure function on that
record, the lifecycle object `MonitoredScheduledTask` becomes a structure with
its mutators as functions, and `executeTaskGroup` becomes both a big-step
function (one group run executed to completion) and a small-step machine
(interleaved group runs, one step per await point) built from the same
per-phase write helpers.

Time is modelled as milliseconds since the Unix epoch (`Nat`).  The SQLite
`createdAt` column (filled by `DEFAULT CURRENT_TIMESTAMP`) holds a
`"YYYY-MM-DD HH:MM:SS"` string, while JavaScript `Date.toISOString()` produces
`"YYYY-MM-DDTHH:MM:SS.mmmZ"`; both formats are reproduced exactly because
`cleanupOldRecords` compares them lexicographically (SQLite TEXT comparison).
Opaque UUID strings are modelled as `Nat` identifiers.
-/

namespace Sched

/-- Task/group status enumeration, from `MonitoredScheduledTask.ts`
(`TaskStatus`): created / in_progress / completed / error / skipped. -/
inductive TaskStatus where
  | created
  | inProgress
  | completed
  | error
  | skipped
deriving DecidableEq, Repr

/-- Terminal statuses are completed, error, skipped (spec section 4.1). -/
def TaskStatus.isTerminal : TaskStatus → Bool
  | .completed => true
  | .error => true
  | .skipped => true
  | _ => false

/-! ## Calendar arithmetic and timestamp formatting

`Date.toISOString()` and SQLite `CURRENT_TIMESTAMP` both render UTC civil
time; we reproduce the strings from epoch milliseconds using the standard
Gregorian days-to-civil conversion. -/

/-- Convert a day count since 1970-01-01 into a Gregorian (year, month, day).
Standard era-based algorithm, valid for all `z : Nat`. -/
def civilFromDays (z : Nat) : Nat × Nat × Nat :=
  let z' := z + 719468
  let era := z' / 146097
  let doe := z' % 146097
  let yoe := (doe - doe / 1460 + doe / 36524 - doe / 146096) / 365
  let y := yoe + era * 400
  let doy := doe - (365 * yoe + yoe / 4 - yoe / 100)
  let mp := (5 * doy + 2) / 153
  let d := doy - (153 * mp + 2) / 5 + 1
  let m := if mp < 10 then mp + 3 else mp - 9
  (if m ≤ 2 then y + 1 else y, m, d)

/-- Zero-pad a numeral to two digits. -/
def pad2 (n : Nat) : String :=
  if n < 10 then "0" ++ toString n else toString n

/-- Zero-pad a numeral to three digits. -/
def pad3 (n : Nat) : String :=
  if n < 10 then "00" ++ toString n
  else if n < 100 then "0" ++ toString n
  else toString n

/-- Zero-pad a numeral to four digits. -/
def pad4 (n : Nat) : String :=
  if n < 10 then "000" ++ toString n
  else if n < 100 then "00" ++ toString n
  else if n < 1000 then "0" ++ toString n
  else toString n

/-- Civil UTC fields (year, month, day, hour, minute, second, millisecond) of
an epoch-milliseconds instant. -/
def civilOfMillis (t : Nat) : Nat × Nat × Nat × Nat × Nat × Nat × Nat :=
  let ms := t % 1000
  let s := t / 1000
  let (y, mo, d) := civilFromDays (s / 86400)
  let rem := s % 86400
  (y, mo, d, rem / 3600, rem % 3600 / 60, rem % 60, ms)

/-- The string `Date.toISOString()` produces for an instant:
`"YYYY-MM-DDTHH:MM:SS.mmmZ"`. -/
def isoTimestamp (t : Nat) : String :=
  let (y, mo, d, h, mi, s, ms) := civilOfMillis t
  pad4 y ++ "-" ++ pad2 mo ++ "-" ++ pad2 d ++ "T" ++ pad2 h ++ ":" ++
    pad2 mi ++ ":" ++ pad2 s ++ "." ++ pad3 ms ++ "Z"

/-- The string SQLite `CURRENT_TIMESTAMP` stores for an instant:
`"YYYY-MM-DD HH:MM:SS"` (UTC, second precision). -/
def sqliteTimestamp (t : Nat) : String :=
  let (y, mo, d, h, mi, s, _) := civilOfMillis t
  pad4 y ++ "-" ++ pad2 mo ++ "-" ++ pad2 d ++ " " ++ pad2 h ++ ":" ++
    pad2 mi ++ ":" ++ pad2 s

/-- Embedding of `convertUtcToArizonaTime` (dateTimeConvertor.ts): format the
instant's wall-clock fields in America/Phoenix — a fixed UTC-7 zone with no
daylight saving and second precision (`formatToParts` emits no milliseconds,
and the rebuilt string ends in `.000Z`) — then reparse those fields as if they
were UTC.  Net effect on the instant: subtract 7 hours and truncate to whole
seconds. -/
def convertUtcToArizonaTime (t : Nat) : Nat :=
  ((t - 7 * 3600000) / 1000) * 1000

/-! ## Store rows (DatabaseManager.ts)

`TaskGroupRecord` / `TaskRecord` plus the SQLite-side `createdAt` column.
`startTime`/`endTime` hold `toISOString()` output, which compares
lexicographically exactly like the underlying instants, so they are modelled
as epoch milliseconds; `createdAt` is kept as the literal stored string
because `cleanupOldRecords` compares it against a differently-formatted
cutoff string. -/

/-- Computed task parameters (`Record<string, any>`): the `lastChanged` key,
which the scheduler may compute, plus the remaining opaque entries. -/
structure Params where
  lastChanged : Option String
  rest : List (String × String)
deriving DecidableEq, Repr

/-- A row of the `taskGroups` table. -/
structure TaskGroupRow where
  taskGroupId : Nat
  groupName : String
  status : TaskStatus
  message : Option String
  startTime : Option Nat
  endTime : Option Nat
  stackTrace : Option String
  createdAt : String
deriving DecidableEq, Repr

/-- A row of the `tasks` table. -/
structure TaskRow where
  taskGroupId : Nat
  taskId : Nat
  taskName : String
  params : Params
  filePath : String
  status : TaskStatus
  message : Option String
  startTime : Option Nat
  endTime : Option Nat
  summary : Option String
  percentage : Option Nat
  createdAt : String
deriving DecidableEq, Repr

/-- The persistence store: both tables, in insertion order. -/
structure DB where
  taskGroups : List TaskGroupRow
  tasks : List TaskRow
deriving DecidableEq, Repr

/-! ## DatabaseManager operations -/

/-- `insertTaskGroup`: plain `INSERT` into `taskGroups`; `createdAt` is filled
by the column default `CURRENT_TIMESTAMP`. -/
def insertTaskGroup (g : TaskGroupRow) (now : Nat) (db : DB) : DB :=
  { db with taskGroups := db.taskGroups ++ [{ g with createdAt := sqliteTimestamp now }] }

/-- `isTaskGroupRunning`: `COUNT(*)` of rows with this `groupName` and status
`in_progress` is positive. -/
def isTaskGroupRunning (groupName : String) (db : DB) : Bool :=
  db.taskGroups.any fun g => g.groupName == groupName && g.status == .inProgress

/-- `isTaskRunning`: `COUNT(*)` of rows with this `taskName` and status
`in_progress` is positive. -/
def isTaskRunning (taskName : String) (db : DB) : Bool :=
  db.tasks.any fun r => r.taskName == taskName && r.status == .inProgress

/-- SQLite BINARY collation on two character lists: byte-wise (here
code-point-wise — identical on the ASCII timestamp strings involved)
lexicographic "strictly less than". -/
def strLtChars : List Char → List Char → Bool
  | [], [] => false
  | [], _ :: _ => true
  | _ :: _, [] => false
  | a :: as, b :: bs =>
    if a.toNat < b.toNat then true
    else if b.toNat < a.toNat then false
    else strLtChars as bs

/-- SQLite TEXT comparison `a < b` under the default BINARY collation. -/
def strLt (a b : String) : Bool :=
  strLtChars a.data b.data

/-- `cleanupOldRecords(daysToKeep)`: compute
`new Date(Date.now() - daysToKeep*24*60*60*1000).toISOString()` and delete
every row whose `createdAt` is lexicographically below it.  The stored
`createdAt` is in SQLite `CURRENT_TIMESTAMP` format while the cutoff is a
JavaScript ISO string; SQLite compares the two TEXT values byte-wise
(BINARY collation). -/
def cleanupOldRecords (daysToKeep : Nat) (now : Nat) (db : DB) : DB :=
  let cutoff := isoTimestamp (now - daysToKeep * 86400000)
  { taskGroups := db.taskGroups.filter fun g => !strLt g.createdAt cutoff,
    tasks := db.tasks.filter fun r => !strLt r.createdAt cutoff }

/-- `insertTask`: runs `cleanupOldRecords()` (default 30 days) first, then
inserts the row; `createdAt` is filled by the column default. -/
def insertTask (t : TaskRow) (now : Nat) (db : DB) : DB :=
  let db' := cleanupOldRecords 30 now db
  { db' with tasks := db'.tasks ++ [{ t with createdAt := sqliteTimestamp now }] }

/-- The field set `updateTaskInDatabase` (TaskScheduler.ts) always sends to
`updateTask`: status, message, startTime, endTime, summary, percentage. -/
structure TaskUpd where
  status : TaskStatus
  message : Option String
  startTime : Option Nat
  endTime : Option Nat
  summary : Option String
  percentage : Option Nat
deriving DecidableEq, Repr

/-- Apply a `TaskUpd` to one row (all six columns are overwritten). -/
def applyTaskUpd (u : TaskUpd) (r : TaskRow) : TaskRow :=
  { r with status := u.status, message := u.message, startTime := u.startTime,
           endTime := u.endTime, summary := u.summary, percentage := u.percentage }

/-- `updateTask(taskId, updates)`: `UPDATE tasks SET ... WHERE taskId = ?`. -/
def updateTask (taskId : Nat) (u : TaskUpd) (db : DB) : DB :=
  { db with tasks := db.tasks.map fun r => if r.taskId == taskId then applyTaskUpd u r else r }

/-- The field set `executeTaskGroup` sends to `updateTaskGroup` when the run
terminates: status, message, endTime, and (in the catch branch) stackTrace. -/
structure GroupUpd where
  status : TaskStatus
  message : String
  endTime : Nat
  stackTrace : Option (Option String)
deriving DecidableEq, Repr

/-- Apply a `GroupUpd` to one row (the stackTrace column is touched only when
the update carries the key, i.e. in the catch branch). -/
def applyGroupUpd (u : GroupUpd) (g : TaskGroupRow) : TaskGroupRow :=
  { g with status := u.status, message := some u.message, endTime := some u.endTime,
           stackTrace := u.stackTrace.getD g.stackTrace }

/-- `updateTaskGroup(taskGroupId, updates)`:
`UPDATE taskGroups SET ... WHERE taskGroupId = ?`. -/
def updateTaskGroup (taskGroupId : Nat) (u : GroupUpd) (db : DB) : DB :=
  { db with taskGroups := db.taskGroups.map fun g =>
      if g.taskGroupId == taskGroupId then applyGroupUpd u g else g }

/-- `getLastCompletedRun(taskName)`: among rows with this name and status
`completed`, the one `ORDER BY endTime DESC LIMIT 1` returns — i.e. a row
with maximal `endTime` (`NULL` sorts below every value in descending order);
ties resolve to the earliest such row in table order. -/
def getLastCompletedRun (taskName : String) (db : DB) : Option TaskRow :=
  (db.tasks.filter fun r => r.taskName == taskName && r.status == .completed).foldl
    (fun acc r =>
      match acc with
      | none => some r
      | some a =>
        match a.endTime, r.endTime with
        | none, some _ => some r
        | some x, some y => if x < y then some r else some a
        | _, none => some a)
    none

/-- `markIncompleteTasksAsErrors` (startup recovery): every `in_progress`
group row and every `created`/`in_progress` task row becomes `error` with the
interruption message and `endTime = now`; all other rows are untouched. -/
def markIncompleteTasksAsErrors (now : Nat) (db : DB) : DB :=
  { taskGroups := db.taskGroups.map fun g =>
      if g.status == .inProgress then
        { g with status := .error,
                 message := some "Marked as error: Application shutdown while in progress",
                 endTime := some now }
      else g,
    tasks := db.tasks.map fun r =>
      if r.status == .created || r.status == .inProgress then
        { r with status := .error,
                 message := some "Marked as error: Application shutdown while in progress",
                 endTime := some now }
      else r }

/-! ## The Task Lifecycle Object (MonitoredScheduledTask.ts)

The mutable fields of `MonitoredScheduledTask` as a structure; each mutator
becomes a function returning the updated object.  The user-supplied `execute`
hook is arbitrary external code; its observable effect on the lifecycle is its
outcome — normal return or a thrown error message — passed in as
`Except String Unit`. -/

/-- Progress snapshot (`TaskProgress`). -/
structure TaskProgress where
  message : String
  percentage : Option Nat
deriving DecidableEq, Repr

/-- In-memory state of one `MonitoredScheduledTask` instance. -/
structure MTask where
  taskId : Nat
  taskName : String
  startTime : Option Nat
  endTime : Option Nat
  status : TaskStatus
  error : Option String
  summary : Option String
  currentProgress : TaskProgress
deriving DecidableEq, Repr

/-- A freshly constructed task object: status `created`, progress
"Initialized", nothing else set. -/
def MTask.make (taskName : String) (taskId : Nat) : MTask :=
  { taskId := taskId, taskName := taskName, startTime := none, endTime := none,
    status := .created, error := none, summary := none,
    currentProgress := { message := "Initialized", percentage := none } }

/-- `setStatus(status)`: unconditionally overwrites the status field. -/
def MTask.setStatus (t : MTask) (s : TaskStatus) : MTask :=
  { t with status := s }

/-- `setError(error)`: records the error text and forces status `error`. -/
def MTask.setError (t : MTask) (e : String) : MTask :=
  { t with error := some e, status := .error }

/-- `updateProgress(message, percentage?)`: replaces the progress snapshot. -/
def MTask.updateProgress (t : MTask) (message : String) (percentage : Option Nat) : MTask :=
  { t with currentProgress := { message := message, percentage := percentage } }

/-- `skip(reason)`: `setStatus(SKIPPED)`, progress "Task skipped: reason",
summary := reason. -/
def MTask.skip (t : MTask) (reason : String) : MTask :=
  { (t.setStatus .skipped).updateProgress ("Task skipped: " ++ reason) none with
      summary := some reason }

/-- The synchronous prologue of `start()` up to the first await inside the
user hook: record the start timestamp, `setStatus(IN_PROGRESS)`,
`updateProgress('Starting task...')`. -/
def MTask.startPrologue (t : MTask) (t0 : Nat) : MTask :=
  ({ t with startTime := some t0 }.setStatus .inProgress).updateProgress "Starting task..." none

/-- The epilogue of `start()` once the user hook finishes: on success record
the end timestamp, `setStatus(COMPLETED)`, progress "Task completed"; on a
thrown error record the end timestamp, `setError(message)`, progress
"Task failed with error" (the error is rethrown to the caller). -/
def MTask.startEpilogue (t : MTask) (outcome : Except String Unit) (t1 : Nat) : MTask :=
  match outcome with
  | .ok _ => ({ t with endTime := some t1 }.setStatus .completed).updateProgress
      "Task completed" none
  | .error e => ({ t with endTime := some t1 }.setError e).updateProgress
      "Task failed with error" none

/-- `start()` as a whole: prologue, user hook (with the given outcome),
epilogue. -/
def MTask.start (t : MTask) (outcome : Except String Unit) (t0 t1 : Nat) : MTask :=
  (t.startPrologue t0).startEpilogue outcome t1

/-! ## TaskScheduler: configuration and the group executor -/

/-- `TaskConfig`: name, module path, params, advisory thresholds, and the
optional `killOnFail` flag (absent = false). -/
structure TaskConfig where
  name : String
  filePath : String
  params : Params
  killOnFail : Bool
deriving DecidableEq, Repr

/-- `TaskGroupConfig`: group name and the declared task order (the cron
expression drives trigger timing only and plays no role in a single run). -/
structure TaskGroupConfig where
  groupName : String
  tasks : List TaskConfig
deriving DecidableEq, Repr

/-- The `lastChanged` computation in `createTask` (TaskScheduler.ts): if the
configured params carry no usable `lastChanged` value (`!params.lastChanged`,
so a missing key or an empty string), look up the last completed run; if it
exists and has a truthy `startTime`, use that start time minus 10 minutes,
else the fixed default `2000-01-01T00:00:00.000Z` (epoch 946684800000 ms);
in both cases convert to Arizona wall-clock time and serialize with
`toISOString()`. -/
def computeLastChanged (taskName : String) (db : DB) : String :=
  match getLastCompletedRun taskName db with
  | some r =>
    match r.startTime with
    | some t => isoTimestamp (convertUtcToArizonaTime (t - 10 * 60 * 1000))
    | none => isoTimestamp (convertUtcToArizonaTime 946684800000)
  | none => isoTimestamp (convertUtcToArizonaTime 946684800000)

/-- The calculated parameter map `createTask` returns for a task. -/
def createTaskParams (tc : TaskConfig) (db : DB) : Params :=
  if tc.params.lastChanged = none ∨ tc.params.lastChanged = some "" then
    { tc.params with lastChanged := some (computeLastChanged tc.name db) }
  else
    tc.params

/-- `updateTaskInDatabase(task)`: the update record sent to `updateTask` —
status, `task.error || task.currentProgress.message`, start/end timestamps,
summary, progress percentage. -/
def taskUpdOf (t : MTask) : TaskUpd :=
  { status := t.status, message := some (t.error.getD t.currentProgress.message),
    startTime := t.startTime, endTime := t.endTime, summary := t.summary,
    percentage := t.currentProgress.percentage }

/-- Flush one lifecycle object's state into its row. -/
def updateTaskInDatabase (t : MTask) (db : DB) : DB :=
  updateTask t.taskId (taskUpdOf t) db

/-- The `tasks` row `executeTaskGroup` inserts for each created task:
status `created`, message "Task created", the serialized calculated params. -/
def createdRow (gid tid : Nat) (tc : TaskConfig) (ps : Params) : TaskRow :=
  { taskGroupId := gid, taskId := tid, taskName := tc.name, params := ps,
    filePath := tc.filePath, status := .created, message := some "Task created",
    startTime := none, endTime := none, summary := none, percentage := none,
    createdAt := "" }

/-- The `taskGroups` row inserted when a duplicate group run is detected:
status `skipped`, message "Task group already running". -/
def skippedGroupRow (gid : Nat) (groupName : String) (now : Nat) : TaskGroupRow :=
  { taskGroupId := gid, groupName := groupName, status := .skipped,
    message := some "Task group already running", startTime := some now,
    endTime := none, stackTrace := none, createdAt := "" }

/-- The `taskGroups` row inserted when a group run starts: status
`in_progress`, message "Task group started". -/
def startedGroupRow (gid : Nat) (groupName : String) (now : Nat) : TaskGroupRow :=
  { taskGroupId := gid, groupName := groupName, status := .inProgress,
    message := some "Task group started", startTime := some now,
    endTime := none, stackTrace := none, createdAt := "" }

/-- One iteration of the sequential execution loop of `executeTaskGroup`
(`executeTask` inlined).  Inputs: the current `shouldContinue` flag and store;
outputs: the task object's final state, the updated flag, the updated store.

* `shouldContinue = false`: `skip` with the killOnFail reason and flush.
* duplicate guard (`isTaskRunning`): `skip('Task already running')`, flush.
* otherwise: `start()` — the prologue's `statusChanged`/`progressUpdated`
  events flush the in-progress snapshot, then the hook runs (outcome given),
  then the final flush in `finally` writes the terminal snapshot.  If the
  task errored and its config has `killOnFail`, clear `shouldContinue`. -/
def execOne (now : Nat) (tc : TaskConfig) (tid : Nat) (outcome : Except String Unit)
    (cont : Bool) (db : DB) : MTask × Bool × DB :=
  let t := MTask.make tc.name tid
  if !cont then
    let t' := t.skip "Skipped due to previous task failure (killOnFail)"
    (t', false, updateTaskInDatabase t' db)
  else if isTaskRunning tc.name db then
    let t' := t.skip "Task already running"
    (t', true, updateTaskInDatabase t' db)
  else
    let db1 := updateTaskInDatabase (t.startPrologue now) db
    let t' := t.start outcome now now
    let db2 := updateTaskInDatabase t' db1
    (t', !(tc.killOnFail && decide (t'.status = .error)), db2)

/-- The sequential execution loop over the declared task order, threading the
`shouldContinue` flag and the store. -/
def execLoop (now : Nat) : List (TaskConfig × Nat × Except String Unit) → Bool → DB →
    List MTask × Bool × DB
  | [], cont, db => ([], cont, db)
  | (tc, tid, oc) :: rest, cont, db =>
    let (t, cont1, db1) := execOne now tc tid oc cont db
    let (ts, cont2, db2) := execLoop now rest cont1 db1
    (t :: ts, cont2, db2)

/-- Insert the `created` rows for all tasks of a run (each `insertTask` call
runs the default 30-day cleanup first). -/
def insertCreatedRows (gid : Nat) (now : Nat) :
    List (TaskConfig × Nat × Params) → DB → DB
  | [], db => db
  | (tc, tid, ps) :: rest, db =>
    insertCreatedRows gid now rest (insertTask (createdRow gid tid tc ps) now db)

/-- The error message thrown by `createTask` when the module at `filePath`
does not export a `MonitoredScheduledTask` subclass. -/
def moduleContractMsg (tc : TaskConfig) : String :=
  "Task " ++ tc.name ++ " (" ++ tc.filePath ++
    ") must extend MonitoredScheduledTask. Please convert this task to use the modern pattern."

/-- First task (in declared order) whose module load violates the contract,
if any; `moduleOk` records, positionally, whether each task's module resolves
to a conforming class. -/
def firstBadModule : List TaskConfig → List Bool → Option TaskConfig
  | [], _ => none
  | tc :: rest, oks =>
    if oks.headD true then firstBadModule rest (oks.tailD []) else some tc

/-- Big-step embedding of `executeTaskGroup(groupConfig)` — one group run
executed to completion, with every await resolved in order.

Inputs beyond the config and store: the generated group-run id `gid`, the
per-task generated ids `tids`, per-task module-contract outcomes `moduleOk`,
per-task user-hook outcomes `outcomes`, and the wall clock `now` (the run is
treated as instantaneous; all timestamps taken during it coincide).

Returns the final store plus, for the normal path, the final state of each
lifecycle object (positionally). -/
def executeTaskGroup (cfg : TaskGroupConfig) (gid : Nat) (tids : List Nat)
    (moduleOk : List Bool) (outcomes : List (Except String Unit)) (now : Nat)
    (db : DB) : DB × List MTask :=
  if isTaskGroupRunning cfg.groupName db then
    (insertTaskGroup (skippedGroupRow gid cfg.groupName now) now db, [])
  else
    let db0 := insertTaskGroup (startedGroupRow gid cfg.groupName now) now db
    match firstBadModule cfg.tasks moduleOk with
    | some tc =>
      (updateTaskGroup gid
        { status := .error, message := "Task group failed: " ++ moduleContractMsg tc,
          endTime := now, stackTrace := some none } db0, [])
    | none =>
      let ps := cfg.tasks.map fun tc => createTaskParams tc db0
      let db1 := insertCreatedRows gid now (cfg.tasks.zip (tids.zip ps)) db0
      let (finals, cont, db2) := execLoop now (cfg.tasks.zip (tids.zip outcomes)) true db1
      if cont then
        (updateTaskGroup gid
          { status := .completed, message := "All tasks completed successfully",
            endTime := now, stackTrace := none } db2, finals)
      else
        (updateTaskGroup gid
          { status := .error,
            message := "Task group stopped early due to task failure with killOnFail=true",
            endTime := now, stackTrace := none } db2, finals)

/-! ## Derived forms used by the proofs -/

/-- The full row an `insertTask` call of the insert phase stores (the
`createdAt` column filled by the SQLite default). -/
def insertedRow (gid now : Nat) (x : TaskConfig × Nat × Params) : TaskRow :=
  { createdRow gid x.2.1 x.1 x.2.2 with createdAt := sqliteTimestamp now }

/-- The lifecycle object of a task skipped by killOnFail propagation. -/
def killSkippedTask (name : String) (tid : Nat) : MTask :=
  (MTask.make name tid).skip "Skipped due to previous task failure (killOnFail)"

/-- One loop iteration with the store stripped away: the guard cannot fire
(used to describe runs over stores holding no same-named `in_progress`
row). -/
def pureExecOne (now : Nat) (tc : TaskConfig) (tid : Nat) (oc : Except String Unit)
    (cont : Bool) : MTask × Bool :=
  if !cont then
    (killSkippedTask tc.name tid, false)
  else
    let t' := (MTask.make tc.name tid).start oc now now
    (t', !(tc.killOnFail && decide (t'.status = TaskStatus.error)))

/-- The store-free execution loop. -/
def pureLoop (now : Nat) : List (TaskConfig × Nat × Except String Unit) → Bool →
    List MTask × Bool
  | [], cont => ([], cont)
  | (tc, tid, oc) :: rest, cont =>
    let (t, cont1) := pureExecOne now tc tid oc cont
    let (ts, cont2) := pureLoop now rest cont1
    (t :: ts, cont2)

/-- Apply a sequence of keyed task updates to one row, in order. -/
def applyUpds (ps : List (Nat × TaskUpd)) (r : TaskRow) : TaskRow :=
  ps.foldl (fun r p => if r.taskId == p.1 then applyTaskUpd p.2 r else r) r

/-- The keyed updates an execution-loop run performs, one per task. -/
def loopUpds (items : List (TaskConfig × Nat × Except String Unit))
    (finals : List MTask) : List (Nat × TaskUpd) :=
  (items.zip finals).map fun p => (p.1.2.1, taskUpdOf p.2)

/-- The store after the normal path's group-row insert. -/
def groupDb0 (cfg : TaskGroupConfig) (gid now : Nat) (db : DB) : DB :=
  insertTaskGroup (startedGroupRow gid cfg.groupName now) now db

/-- The store after the normal path's insert phase (task rows created). -/
def groupDb1 (cfg : TaskGroupConfig) (gid : Nat) (tids : List Nat) (now : Nat)
    (db : DB) : DB :=
  insertCreatedRows gid now
    (cfg.tasks.zip (tids.zip
      (cfg.tasks.map fun tc => createTaskParams tc (groupDb0 cfg gid now db))))
    (groupDb0 cfg gid now db)

/-- The per-task execution-loop inputs of a run. -/
def groupItems (cfg : TaskGroupConfig) (tids : List Nat)
    (outcomes : List (Except String Unit)) : List (TaskConfig × Nat × Except String Unit) :=
  cfg.tasks.zip (tids.zip outcomes)

/-- The terminal group update of the all-tasks-processed path. -/
def completedUpd (now : Nat) : GroupUpd :=
  { status := .completed, message := "All tasks completed successfully",
    endTime := now, stackTrace := none }

/-- The terminal group update of the killOnFail early-stop path. -/
def stoppedUpd (now : Nat) : GroupUpd :=
  { status := .error,
    message := "Task group stopped early due to task failure with killOnFail=true",
    endTime := now, stackTrace := none }

/-- The group row the normal path inserts, as stored (`createdAt` filled). -/
def startedRowFull (cfg : TaskGroupConfig) (gid now : Nat) : TaskGroupRow :=
  { startedGroupRow gid cfg.groupName now with createdAt := sqliteTimestamp now }

/-! ## Small-step machine: interleaved group executions

`executeTaskGroup` is an `async` function; on the single-threaded event loop
several invocations (cron firings, manual triggers) interleave at await
points.  Each invocation becomes a `Run` with a program counter; one machine
step executes the synchronous block between two awaits of one run, or spawns
a new run (a trigger firing).  The per-phase store writes are the same
helpers the big-step function uses. -/

/-- Program counter of one `executeTaskGroup` invocation, one phase per
synchronous block between awaits: the group-guard/insert block (`ready`),
the per-task `createTask` awaits (`creating i`), the task-row insert loop
(`inserting`), the head of loop iteration `i` up to `task.start()`'s first
internal suspension (`executing i shouldContinue`), the user hook in flight
(`running i shouldContinue`), and the terminal group update (reached from
`executing` when the loop is exhausted) leading to `done`. -/
inductive RunPhase where
  | ready
  | creating (i : Nat)
  | inserting
  | executing (i : Nat) (cont : Bool)
  | running (i : Nat) (cont : Bool)
  | done
deriving DecidableEq, Repr

/-- One in-flight `executeTaskGroup` invocation: its config, its per-task
module/hook outcomes, the wall clock of the invocation, the generated group
run id, the task ids and params generated so far, and the program counter. -/
structure Run where
  cfg : TaskGroupConfig
  moduleOk : List Bool
  outcomes : List (Except String Unit)
  now : Nat
  gid : Nat
  tids : List Nat
  ps : List Params
  phase : RunPhase

/-- Whole-scheduler state: the shared store, the id generator (UUIDs are
modelled as a fresh counter), and the in-flight runs. -/
structure SchedState where
  db : DB
  counter : Nat
  runs : List Run

/-- A freshly triggered invocation, its group-run id just generated. -/
def mkRun (cfg : TaskGroupConfig) (moduleOk : List Bool)
    (outcomes : List (Except String Unit)) (now gid : Nat) : Run :=
  { cfg := cfg, moduleOk := moduleOk, outcomes := outcomes, now := now,
    gid := gid, tids := [], ps := [], phase := .ready }

/-- Placeholder config for out-of-range `getD` lookups (never reached from a
well-formed phase). -/
def defaultTC : TaskConfig :=
  { name := "", filePath := "", params := ⟨none, []⟩, killOnFail := false }

/-- Advance one run by one synchronous block.  Returns the updated run, the
updated store, and the updated id counter. -/
def stepRun (r : Run) (db : DB) (counter : Nat) : Run × DB × Nat :=
  match r.phase with
  | .ready =>
    if isTaskGroupRunning r.cfg.groupName db then
      ({ r with phase := .done },
       insertTaskGroup (skippedGroupRow r.gid r.cfg.groupName r.now) r.now db, counter)
    else
      ({ r with phase := .creating 0 },
       insertTaskGroup (startedGroupRow r.gid r.cfg.groupName r.now) r.now db, counter)
  | .creating i =>
    if h : i < r.cfg.tasks.length then
      if r.moduleOk.getD i true then
        ({ r with tids := r.tids ++ [counter],
                  ps := r.ps ++ [createTaskParams (r.cfg.tasks.get ⟨i, h⟩) db],
                  phase := .creating (i + 1) }, db, counter + 1)
      else
        ({ r with phase := .done },
         updateTaskGroup r.gid
           { status := .error,
             message := "Task group failed: " ++ moduleContractMsg (r.cfg.tasks.get ⟨i, h⟩),
             endTime := r.now, stackTrace := some none } db, counter)
    else
      ({ r with phase := .inserting }, db, counter)
  | .inserting =>
    ({ r with phase := .executing 0 true },
     insertCreatedRows r.gid r.now (r.cfg.tasks.zip (r.tids.zip r.ps)) db, counter)
  | .executing i cont =>
    if h : i < r.cfg.tasks.length then
      if !cont then
        ({ r with phase := .executing (i + 1) false },
         updateTaskInDatabase
           ((MTask.make (r.cfg.tasks.get ⟨i, h⟩).name (r.tids.getD i 0)).skip
             "Skipped due to previous task failure (killOnFail)") db, counter)
      else if isTaskRunning (r.cfg.tasks.get ⟨i, h⟩).name db then
        ({ r with phase := .executing (i + 1) true },
         updateTaskInDatabase
           ((MTask.make (r.cfg.tasks.get ⟨i, h⟩).name (r.tids.getD i 0)).skip
             "Task already running") db, counter)
      else
        ({ r with phase := .running i cont },
         updateTaskInDatabase
           ((MTask.make (r.cfg.tasks.get ⟨i, h⟩).name (r.tids.getD i 0)).startPrologue
             r.now) db, counter)
    else
      ({ r with phase := .done },
       updateTaskGroup r.gid (if cont then completedUpd r.now else stoppedUpd r.now) db,
       counter)
  | .running i _cont =>
    let tc := r.cfg.tasks.getD i defaultTC
    let t := (MTask.make tc.name (r.tids.getD i 0)).start
      (r.outcomes.getD i (Except.ok ())) r.now r.now
    ({ r with
        phase := .executing (i + 1) (!(tc.killOnFail && decide (t.status = TaskStatus.error))) },
     updateTaskInDatabase t db, counter)
  | .done => (r, db, counter)

/-- One machine step: a new trigger fires (drawing a fresh group-run id), or
one in-flight run advances by one synchronous block. -/
inductive Step : SchedState → SchedState → Prop where
  | spawn (cfg : TaskGroupConfig) (moduleOk : List Bool)
      (outcomes : List (Except String Unit)) (now : Nat) (s : SchedState) :
      Step s { db := s.db, counter := s.counter + 1,
               runs := s.runs ++ [mkRun cfg moduleOk outcomes now s.counter] }
  | advance (idx : Nat) (s : SchedState) (h : idx < s.runs.length) :
      Step s { db := (stepRun (s.runs.get ⟨idx, h⟩) s.db s.counter).2.1,
               counter := (stepRun (s.runs.get ⟨idx, h⟩) s.db s.counter).2.2,
               runs := s.runs.set idx (stepRun (s.runs.get ⟨idx, h⟩) s.db s.counter).1 }

/-- Reflexive-transitive closure of `Step`. -/
inductive Reachable (s0 : SchedState) : SchedState → Prop where
  | refl : Reachable s0 s0
  | tail {s s' : SchedState} : Reachable s0 s → Step s s' → Reachable s0 s'

/-- A post-startup state: no runs in flight, no `in_progress` task row (the
startup recovery of `load()`/`start()` has errored them out), distinct row
ids, and an id counter fresh for every stored row. -/
def InitState (s : SchedState) : Prop :=
  s.runs = [] ∧
  (∀ row ∈ s.db.tasks, row.status ≠ TaskStatus.inProgress) ∧
  (s.db.tasks.map TaskRow.taskId).Nodup ∧
  (∀ row ∈ s.db.tasks, row.taskId < s.counter)

/-- Number of `in_progress` task rows bearing a given task name. -/
def inProgCount (n : String) (db : DB) : Nat :=
  db.tasks.countP fun row => row.taskName == n && row.status == TaskStatus.inProgress

/-- None of this run's generated task ids is stored yet. -/
def tidsFresh (r : Run) (db : DB) : Prop :=
  ∀ tid ∈ r.tids, ∀ row ∈ db.tasks, row.taskId ≠ tid

/-- Any stored row bearing one of this run's task ids carries the matching
configured task name. -/
def nameLink (r : Run) (db : DB) : Prop :=
  ∀ p ∈ r.cfg.tasks.zip r.tids, ∀ row ∈ db.tasks, row.taskId = p.2 →
    row.taskName = p.1.name

/-- Phase-indexed part of the machine invariant. -/
def runPhaseInv (r : Run) (db : DB) : Prop :=
  match r.phase with
  | .ready => r.tids = []
  | .creating i => r.tids.length = i ∧ i ≤ r.cfg.tasks.length ∧ tidsFresh r db
  | .inserting => r.tids.length = r.cfg.tasks.length ∧ tidsFresh r db
  | .executing _ _ => r.tids.length = r.cfg.tasks.length ∧ nameLink r db
  | .running _ _ => r.tids.length = r.cfg.tasks.length ∧ nameLink r db
  | .done => True

/-- The inductive machine invariant: at most one `in_progress` row per task
name, all row ids distinct and below the counter, every run's generated ids
distinct, below the counter and phase-consistent, and distinct runs'
generated ids disjoint. -/
def Inv (s : SchedState) : Prop :=
  (∀ n, inProgCount n s.db ≤ 1) ∧
  (s.db.tasks.map TaskRow.taskId).Nodup ∧
  (∀ row ∈ s.db.tasks, row.taskId < s.counter) ∧
  (∀ k (hk : k < s.runs.length),
    (s.runs.get ⟨k, hk⟩).tids.Nodup ∧
    (∀ tid ∈ (s.runs.get ⟨k, hk⟩).tids, tid < s.counter) ∧
    runPhaseInv (s.runs.get ⟨k, hk⟩) s.db) ∧
  (∀ i j (hi : i < s.runs.length) (hj : j < s.runs.length), i ≠ j →
    ∀ t ∈ (s.runs.get ⟨i, hi⟩).tids, t ∉ (s.runs.get ⟨j, hj⟩).tids)

/-- Concrete fixture: a task whose failure aborts the rest of its group. -/
def tcKill : TaskConfig :=
  { name := "T", filePath := "p", params := ⟨none, []⟩, killOnFail := true }

/-- Concrete fixture: a task without the killOnFail flag. -/
def tcSafe : TaskConfig :=
  { name := "U", filePath := "q", params := ⟨none, []⟩, killOnFail := false }

/-- Concrete fixture: a two-task group, killOnFail task first. -/
def cfgKill : TaskGroupConfig := { groupName := "G", tasks := [tcKill, tcSafe] }

/-- Concrete fixture: a one-task group with a killOnFail task. -/
def cfgOne : TaskGroupConfig := { groupName := "G", tasks := [tcKill] }

/-- Concrete fixture: a two-task group, no killOnFail flags. -/
def cfgSafe : TaskGroupConfig :=
  { groupName := "G",
    tasks := [{ name := "T", filePath := "p", params := ⟨none, []⟩, killOnFail := false },
              { name := "U", filePath := "q", params := ⟨none, []⟩, killOnFail := false }] }

/-- Concrete fixture: the empty store. -/
def demoDb : DB := { taskGroups := [], tasks := [] }

/-! ## Supporting lemmas -/

theorem applyTaskUpd_taskId (u : TaskUpd) (r : TaskRow) :
    (applyTaskUpd u r).taskId = r.taskId := rfl

theorem applyTaskUpd_last (u1 u2 : TaskUpd) (r : TaskRow) :
    applyTaskUpd u2 (applyTaskUpd u1 r) = applyTaskUpd u2 r := rfl

theorem updateTask_twice (tid : Nat) (u1 u2 : TaskUpd) (db : DB) :
    updateTask tid u2 (updateTask tid u1 db) = updateTask tid u2 db := by
  simp only [updateTask, List.map_map]
  congr 1
  apply List.map_congr_left
  intro r _
  by_cases h : r.taskId == tid <;>
    simp [h, Function.comp, applyTaskUpd_taskId, applyTaskUpd_last]

theorem updateTask_taskGroups (tid : Nat) (u : TaskUpd) (db : DB) :
    (updateTask tid u db).taskGroups = db.taskGroups := rfl

theorem execOne_taskId (now : Nat) (tc : TaskConfig) (tid : Nat)
    (oc : Except String Unit) (cont : Bool) (db : DB) :
    ((execOne now tc tid oc cont db).1).taskId = tid := by
  rw [execOne]
  split
  · rfl
  · split
    · rfl
    · cases oc <;> rfl

theorem execOne_db_eq (now : Nat) (tc : TaskConfig) (tid : Nat)
    (oc : Except String Unit) (cont : Bool) (db : DB) :
    (execOne now tc tid oc cont db).2.2 =
      updateTask tid (taskUpdOf (execOne now tc tid oc cont db).1) db := by
  rw [execOne]
  split
  · rfl
  · split
    · rfl
    · show updateTaskInDatabase _ (updateTaskInDatabase _ db) = _
      rw [updateTaskInDatabase, updateTaskInDatabase]
      rw [show ((MTask.make tc.name tid).startPrologue now).taskId = tid from rfl]
      rw [show ((MTask.make tc.name tid).start oc now now).taskId = tid from by
        cases oc <;> rfl]
      rw [updateTask_twice]

theorem execOne_terminal (now : Nat) (tc : TaskConfig) (tid : Nat)
    (oc : Except String Unit) (cont : Bool) (db : DB) :
    ((execOne now tc tid oc cont db).1).status.isTerminal = true := by
  rw [execOne]
  split
  · rfl
  · split
    · rfl
    · cases oc <;> rfl

theorem execOne_dead (now : Nat) (tc : TaskConfig) (tid : Nat)
    (oc : Except String Unit) (db : DB) :
    execOne now tc tid oc false db =
      (killSkippedTask tc.name tid, false,
        updateTask tid (taskUpdOf (killSkippedTask tc.name tid)) db) := rfl

theorem execLoop_cons (now : Nat) (tc : TaskConfig) (tid : Nat)
    (oc : Except String Unit) (rest : List (TaskConfig × Nat × Except String Unit))
    (cont : Bool) (db : DB) :
    execLoop now ((tc, tid, oc) :: rest) cont db =
      ((execOne now tc tid oc cont db).1 ::
         (execLoop now rest (execOne now tc tid oc cont db).2.1
            (execOne now tc tid oc cont db).2.2).1,
       (execLoop now rest (execOne now tc tid oc cont db).2.1
          (execOne now tc tid oc cont db).2.2).2) := rfl

theorem pureLoop_cons (now : Nat) (tc : TaskConfig) (tid : Nat)
    (oc : Except String Unit) (rest : List (TaskConfig × Nat × Except String Unit))
    (cont : Bool) :
    pureLoop now ((tc, tid, oc) :: rest) cont =
      ((pureExecOne now tc tid oc cont).1 ::
         (pureLoop now rest (pureExecOne now tc tid oc cont).2).1,
       (pureLoop now rest (pureExecOne now tc tid oc cont).2).2) := rfl

theorem execLoop_length (now : Nat) (items : List (TaskConfig × Nat × Except String Unit)) :
    ∀ (cont : Bool) (db : DB), (execLoop now items cont db).1.length = items.length := by
  induction items with
  | nil => intro cont db; rfl
  | cons x rest ih =>
    intro cont db
    obtain ⟨tc, tid, oc⟩ := x
    rw [execLoop_cons]
    simp [ih]

theorem execLoop_taskGroups (now : Nat)
    (items : List (TaskConfig × Nat × Except String Unit)) :
    ∀ (cont : Bool) (db : DB),
      (execLoop now items cont db).2.2.taskGroups = db.taskGroups := by
  induction items with
  | nil => intro cont db; rfl
  | cons x rest ih =>
    intro cont db
    obtain ⟨tc, tid, oc⟩ := x
    rw [execLoop_cons]
    simp only [ih, execOne_db_eq, updateTask_taskGroups]

theorem execLoop_append (now : Nat) (l1 l2 : List (TaskConfig × Nat × Except String Unit)) :
    ∀ (cont : Bool) (db : DB),
      execLoop now (l1 ++ l2) cont db =
        ((execLoop now l1 cont db).1 ++
           (execLoop now l2 (execLoop now l1 cont db).2.1 (execLoop now l1 cont db).2.2).1,
         (execLoop now l2 (execLoop now l1 cont db).2.1 (execLoop now l1 cont db).2.2).2) := by
  induction l1 with
  | nil => intro cont db; rfl
  | cons x rest ih =>
    intro cont db
    obtain ⟨tc, tid, oc⟩ := x
    rw [List.cons_append, execLoop_cons, execLoop_cons, ih]
    simp

theorem execLoop_dead (now : Nat) (items : List (TaskConfig × Nat × Except String Unit)) :
    ∀ (db : DB),
      (execLoop now items false db).1 =
        items.map (fun x => killSkippedTask x.1.name x.2.1) ∧
      (execLoop now items false db).2.1 = false := by
  induction items with
  | nil => intro db; exact ⟨rfl, rfl⟩
  | cons x rest ih =>
    intro db
    obtain ⟨tc, tid, oc⟩ := x
    rw [execLoop_cons, execOne_dead]
    refine ⟨?_, (ih _).2⟩
    simp [(ih _).1]

theorem execOne_pure (now : Nat) (tc : TaskConfig) (tid : Nat)
    (oc : Except String Unit) (cont : Bool) (db : DB)
    (h : isTaskRunning tc.name db = false) :
    (execOne now tc tid oc cont db).1 = (pureExecOne now tc tid oc cont).1 ∧
    (execOne now tc tid oc cont db).2.1 = (pureExecOne now tc tid oc cont).2 := by
  rw [execOne, pureExecOne]
  by_cases hc : cont
  · simp [hc, h, killSkippedTask]
  · simp [hc, killSkippedTask]

theorem execOne_error_cont (now : Nat) (tc : TaskConfig) (tid : Nat)
    (oc : Except String Unit) (cont : Bool) (db : DB)
    (h : ((execOne now tc tid oc cont db).1).status = TaskStatus.error) :
    (execOne now tc tid oc cont db).2.1 = !tc.killOnFail := by
  rw [execOne] at h ⊢
  by_cases hc : cont
  · by_cases hr : isTaskRunning tc.name db
    · simp [hc, hr] at h
      exact absurd h (by rw [MTask.skip]; intro hcontra; cases hcontra)
    · simp only [hc, Bool.not_true, Bool.false_eq_true, if_false, hr,
        Bool.false_eq_true, if_false] at h ⊢
      cases oc with
      | ok u =>
        exact absurd h (by intro hcontra; cases hcontra)
      | error e =>
        simp [MTask.start, MTask.startPrologue, MTask.startEpilogue, MTask.setError,
          MTask.setStatus, MTask.updateProgress]
  · simp [hc] at h
    exact absurd h (by rw [MTask.skip]; intro hcontra; cases hcontra)

theorem isTerminal_ne_inProgress {s : TaskStatus} (h : s.isTerminal = true) :
    s ≠ TaskStatus.inProgress := by
  cases s <;> simp_all [TaskStatus.isTerminal]

theorem execLoop_pure (now : Nat) (items : List (TaskConfig × Nat × Except String Unit)) :
    ∀ (cont : Bool) (db : DB),
      (∀ r ∈ db.tasks, r.status = TaskStatus.inProgress →
        ∀ x ∈ items, r.taskName ≠ x.1.name) →
      (execLoop now items cont db).1 = (pureLoop now items cont).1 ∧
      (execLoop now items cont db).2.1 = (pureLoop now items cont).2 := by
  induction items with
  | nil => intro cont db _; exact ⟨rfl, rfl⟩
  | cons x rest ih =>
    intro cont db hq
    obtain ⟨tc, tid, oc⟩ := x
    have hguard : isTaskRunning tc.name db = false := by
      rw [isTaskRunning, List.any_eq_false]
      intro r hr
      simp only [Bool.and_eq_true, beq_iff_eq, not_and]
      intro hname hstatus
      exact absurd hname (hq r hr hstatus (tc, tid, oc) (List.mem_cons_self _ _))
    have hone := execOne_pure now tc tid oc cont db hguard
    have hq' : ∀ r ∈ (execOne now tc tid oc cont db).2.2.tasks,
        r.status = TaskStatus.inProgress → ∀ y ∈ rest, r.taskName ≠ y.1.name := by
      intro r hr hst y hy
      rw [execOne_db_eq, updateTask] at hr
      simp only [List.mem_map] at hr
      obtain ⟨r0, hr0, hr0eq⟩ := hr
      by_cases hid : r0.taskId == tid
      · rw [if_pos hid] at hr0eq
        have hterm := execOne_terminal now tc tid oc cont db
        have hre : r.status = ((execOne now tc tid oc cont db).1).status := by
          rw [← hr0eq]; rfl
        rw [hre] at hst
        exact absurd hst (isTerminal_ne_inProgress hterm)
      · rw [if_neg hid] at hr0eq
        rw [← hr0eq] at hst ⊢
        exact hq r0 hr0 hst y (List.mem_cons_of_mem _ hy)
    have hrest := ih (execOne now tc tid oc cont db).2.1
      (execOne now tc tid oc cont db).2.2 hq'
    refine ⟨?_, ?_⟩
    · rw [show (execLoop now ((tc, tid, oc) :: rest) cont db).1 =
            (execOne now tc tid oc cont db).1 ::
              (execLoop now rest (execOne now tc tid oc cont db).2.1
                (execOne now tc tid oc cont db).2.2).1 from rfl,
          show (pureLoop now ((tc, tid, oc) :: rest) cont).1 =
            (pureExecOne now tc tid oc cont).1 ::
              (pureLoop now rest (pureExecOne now tc tid oc cont).2).1 from rfl,
          hrest.1, hone.1, hone.2]
    · rw [show (execLoop now ((tc, tid, oc) :: rest) cont db).2.1 =
            (execLoop now rest (execOne now tc tid oc cont db).2.1
              (execOne now tc tid oc cont db).2.2).2.1 from rfl,
          show (pureLoop now ((tc, tid, oc) :: rest) cont).2 =
            (pureLoop now rest (pureExecOne now tc tid oc cont).2).2 from rfl,
          hrest.2, hone.2]

theorem pureLoop_length (now : Nat) (items : List (TaskConfig × Nat × Except String Unit)) :
    ∀ (cont : Bool), (pureLoop now items cont).1.length = items.length := by
  induction items with
  | nil => intro cont; rfl
  | cons x rest ih =>
    intro cont
    obtain ⟨tc, tid, oc⟩ := x
    rw [pureLoop_cons]
    simp [ih]

theorem pureLoop_noKill (now : Nat) (items : List (TaskConfig × Nat × Except String Unit))
    (h : ∀ x ∈ items, x.1.killOnFail = true → x.2.2 = Except.ok ()) :
    (pureLoop now items true).1 =
      items.map (fun x => (MTask.make x.1.name x.2.1).start x.2.2 now now) ∧
    (pureLoop now items true).2 = true := by
  induction items with
  | nil => exact ⟨rfl, rfl⟩
  | cons x rest ih =>
    obtain ⟨tc, tid, oc⟩ := x
    have hcont : (pureExecOne now tc tid oc true).2 = true := by
      rw [pureExecOne]
      by_cases hk : tc.killOnFail
      · have hoc := h (tc, tid, oc) (List.mem_cons_self _ _) hk
        simp only at hoc
        simp [hoc, MTask.start, MTask.startPrologue, MTask.startEpilogue,
          MTask.setStatus, MTask.updateProgress]
      · simp [hk]
    have hfst : (pureExecOne now tc tid oc true).1 =
        (MTask.make tc.name tid).start oc now now := by
      rw [pureExecOne]; simp
    have ihr := ih fun y hy => h y (List.mem_cons_of_mem _ hy)
    rw [pureLoop_cons, hcont, hfst]
    simp [ihr.1, ihr.2]

theorem applyUpds_id (ps : List (Nat × TaskUpd)) (r : TaskRow)
    (h : ∀ p ∈ ps, r.taskId ≠ p.1) : applyUpds ps r = r := by
  induction ps with
  | nil => rfl
  | cons p rest ih =>
    rw [applyUpds, List.foldl_cons]
    rw [if_neg (by simpa using h p (List.mem_cons_self _ _))]
    exact ih fun q hq => h q (List.mem_cons_of_mem _ hq)

theorem applyUpds_found (ps : List (Nat × TaskUpd)) (r : TaskRow)
    (hnd : (ps.map Prod.fst).Nodup) (p : Nat × TaskUpd) (hp : p ∈ ps)
    (hid : r.taskId = p.1) : applyUpds ps r = applyTaskUpd p.2 r := by
  induction ps with
  | nil => cases hp
  | cons q rest ih =>
    rw [List.map_cons, List.nodup_cons] at hnd
    rcases List.mem_cons.mp hp with hqp | hmem
    · subst hqp
      rw [applyUpds, List.foldl_cons, if_pos (by simpa using hid)]
      have hnone : ∀ s ∈ rest, (applyTaskUpd p.2 r).taskId ≠ s.1 := by
        intro s hs
        rw [applyTaskUpd_taskId, hid]
        intro hcontra
        apply hnd.1
        rw [hcontra]
        exact List.mem_map_of_mem _ hs
      exact applyUpds_id rest _ hnone
    · have hne : r.taskId ≠ q.1 := by
        rw [hid]
        intro hcontra
        apply hnd.1
        rw [← hcontra]
        exact List.mem_map_of_mem _ hmem
      rw [applyUpds, List.foldl_cons, if_neg (by simpa using hne)]
      exact ih hnd.2 hmem

theorem loopUpds_cons (x : TaskConfig × Nat × Except String Unit)
    (items : List (TaskConfig × Nat × Except String Unit))
    (t : MTask) (finals : List MTask) :
    loopUpds (x :: items) (t :: finals) =
      (x.2.1, taskUpdOf t) :: loopUpds items finals := rfl

theorem execLoop_tasks (now : Nat) (items : List (TaskConfig × Nat × Except String Unit)) :
    ∀ (cont : Bool) (db : DB),
      (execLoop now items cont db).2.2.tasks =
        db.tasks.map (applyUpds (loopUpds items (execLoop now items cont db).1)) := by
  induction items with
  | nil =>
    intro cont db
    show db.tasks = db.tasks.map (applyUpds [])
    rw [show applyUpds ([] : List (Nat × TaskUpd)) = fun r => r from rfl]
    exact (List.map_id' db.tasks).symm
  | cons x rest ih =>
    intro cont db
    obtain ⟨tc, tid, oc⟩ := x
    rw [execLoop_cons, loopUpds_cons]
    rw [ih]
    rw [execOne_db_eq, updateTask]
    rw [List.map_map]
    apply List.map_congr_left
    intro r _
    show applyUpds _ (if r.taskId == tid then applyTaskUpd _ r else r) = _
    rw [applyUpds, applyUpds, List.foldl_cons]

theorem insertTaskGroup_tasks (g : TaskGroupRow) (now : Nat) (db : DB) :
    (insertTaskGroup g now db).tasks = db.tasks := rfl

theorem insertTask_tasks (t : TaskRow) (now : Nat) (db : DB) :
    (insertTask t now db).tasks =
      (cleanupOldRecords 30 now db).tasks ++
        [{ t with createdAt := sqliteTimestamp now }] := rfl

theorem insertTask_taskGroups (t : TaskRow) (now : Nat) (db : DB) :
    (insertTask t now db).taskGroups = (cleanupOldRecords 30 now db).taskGroups := rfl

theorem cleanupOldRecords_tasks (d now : Nat) (db : DB) :
    (cleanupOldRecords d now db).tasks =
      db.tasks.filter
        (fun r => !strLt r.createdAt (isoTimestamp (now - d * 86400000))) := rfl

theorem cleanupOldRecords_taskGroups (d now : Nat) (db : DB) :
    (cleanupOldRecords d now db).taskGroups =
      db.taskGroups.filter
        (fun g => !strLt g.createdAt (isoTimestamp (now - d * 86400000))) := rfl

theorem insertCreatedRows_mem_tasks (gid now : Nat) (lst : List (TaskConfig × Nat × Params)) :
    ∀ (db : DB) (r : TaskRow), r ∈ (insertCreatedRows gid now lst db).tasks →
      r ∈ db.tasks ∨ ∃ x ∈ lst, r = insertedRow gid now x := by
  induction lst with
  | nil => intro db r hr; exact Or.inl hr
  | cons x rest ih =>
    intro db r hr
    obtain ⟨tc, tid, ps⟩ := x
    rcases ih _ r hr with hmem | ⟨y, hy, hr'⟩
    · rw [insertTask_tasks, cleanupOldRecords_tasks] at hmem
      rcases List.mem_append.mp hmem with hold | hnew
      · exact Or.inl (List.mem_filter.mp hold).1
      · exact Or.inr ⟨(tc, tid, ps), List.mem_cons_self _ _, List.mem_singleton.mp hnew⟩
    · exact Or.inr ⟨y, List.mem_cons_of_mem _ hy, hr'⟩

theorem insertCreatedRows_mem_groups (gid now : Nat) (lst : List (TaskConfig × Nat × Params)) :
    ∀ (db : DB) (g : TaskGroupRow), g ∈ (insertCreatedRows gid now lst db).taskGroups →
      g ∈ db.taskGroups := by
  induction lst with
  | nil => intro db g hg; exact hg
  | cons x rest ih =>
    intro db g hg
    obtain ⟨tc, tid, ps⟩ := x
    have hin := ih _ g hg
    rw [insertTask_taskGroups, cleanupOldRecords_taskGroups] at hin
    exact (List.mem_filter.mp hin).1

theorem insertCreatedRows_keep_group (gid now : Nat)
    (lst : List (TaskConfig × Nat × Params)) :
    ∀ (db : DB) (g : TaskGroupRow), g ∈ db.taskGroups →
      strLt g.createdAt (isoTimestamp (now - 30 * 86400000)) = false →
      g ∈ (insertCreatedRows gid now lst db).taskGroups := by
  induction lst with
  | nil => intro db g hg _; exact hg
  | cons x rest ih =>
    intro db g hg hkeep
    obtain ⟨tc, tid, ps⟩ := x
    refine ih _ g ?_ hkeep
    rw [insertTask_taskGroups, cleanupOldRecords_taskGroups]
    exact List.mem_filter.mpr ⟨hg, by simp [hkeep]⟩

theorem insertCreatedRows_keep_task (gid now : Nat)
    (lst : List (TaskConfig × Nat × Params)) :
    ∀ (db : DB) (r : TaskRow), r ∈ db.tasks →
      strLt r.createdAt (isoTimestamp (now - 30 * 86400000)) = false →
      r ∈ (insertCreatedRows gid now lst db).tasks := by
  induction lst with
  | nil => intro db r hr _; exact hr
  | cons x rest ih =>
    intro db r hr hkeep
    obtain ⟨tc, tid, ps⟩ := x
    refine ih _ r ?_ hkeep
    rw [insertTask_tasks, cleanupOldRecords_tasks]
    exact List.mem_append_left _ (List.mem_filter.mpr ⟨hr, by simp [hkeep]⟩)

theorem insertCreatedRows_self_mem (gid now : Nat)
    (lst : List (TaskConfig × Nat × Params))
    (hclean : strLt (sqliteTimestamp now) (isoTimestamp (now - 30 * 86400000)) = false) :
    ∀ (db : DB) (x : TaskConfig × Nat × Params), x ∈ lst →
      insertedRow gid now x ∈ (insertCreatedRows gid now lst db).tasks := by
  induction lst with
  | nil => intro db x hx; cases hx
  | cons y rest ih =>
    intro db x hx
    obtain ⟨tc, tid, ps⟩ := y
    rcases List.mem_cons.mp hx with hxy | hmem
    · subst hxy
      refine insertCreatedRows_keep_task gid now rest _ _ ?_ ?_
      · rw [insertTask_tasks]
        exact List.mem_append_right _ (List.mem_singleton.mpr rfl)
      · exact hclean
    · exact ih _ x hmem

theorem applyTaskUpd_taskGroupId (u : TaskUpd) (r : TaskRow) :
    (applyTaskUpd u r).taskGroupId = r.taskGroupId := rfl

theorem applyUpds_taskId (ps : List (Nat × TaskUpd)) (r : TaskRow) :
    (applyUpds ps r).taskId = r.taskId := by
  induction ps generalizing r with
  | nil => rfl
  | cons p rest ih =>
    rw [applyUpds, List.foldl_cons]
    by_cases h : r.taskId == p.1
    · rw [if_pos h]
      rw [show List.foldl _ (applyTaskUpd p.2 r) rest = applyUpds rest (applyTaskUpd p.2 r) from rfl]
      rw [ih, applyTaskUpd_taskId]
    · rw [if_neg h]
      exact ih r

theorem applyUpds_taskGroupId (ps : List (Nat × TaskUpd)) (r : TaskRow) :
    (applyUpds ps r).taskGroupId = r.taskGroupId := by
  induction ps generalizing r with
  | nil => rfl
  | cons p rest ih =>
    rw [applyUpds, List.foldl_cons]
    by_cases h : r.taskId == p.1
    · rw [if_pos h]
      rw [show List.foldl _ (applyTaskUpd p.2 r) rest = applyUpds rest (applyTaskUpd p.2 r) from rfl]
      rw [ih, applyTaskUpd_taskGroupId]
    · rw [if_neg h]
      exact ih r

theorem execLoop_finals_terminal (now : Nat)
    (items : List (TaskConfig × Nat × Except String Unit)) :
    ∀ (cont : Bool) (db : DB) (t : MTask), t ∈ (execLoop now items cont db).1 →
      t.status.isTerminal = true := by
  induction items with
  | nil => intro cont db t ht; cases ht
  | cons x rest ih =>
    intro cont db t ht
    obtain ⟨tc, tid, oc⟩ := x
    rw [execLoop_cons] at ht
    rcases List.mem_cons.mp ht with h | h
    · rw [h]; exact execOne_terminal now tc tid oc cont db
    · exact ih _ _ t h

theorem loopUpds_keys (cfg : TaskGroupConfig) (tids : List Nat)
    (outcomes : List (Except String Unit)) (finals : List MTask)
    (hlen1 : tids.length = cfg.tasks.length)
    (hlen2 : outcomes.length = cfg.tasks.length)
    (hflen : (groupItems cfg tids outcomes).length ≤ finals.length) :
    (loopUpds (groupItems cfg tids outcomes) finals).map Prod.fst = tids := by
  have h1 : (tids.zip outcomes).length ≤ cfg.tasks.length := by
    rw [List.length_zip]; omega
  have h2 : tids.length ≤ outcomes.length := by omega
  calc (loopUpds (groupItems cfg tids outcomes) finals).map Prod.fst
      = ((groupItems cfg tids outcomes).zip finals).map (fun p => p.1.2.1) := by
        rw [loopUpds, List.map_map]; rfl
    _ = (((groupItems cfg tids outcomes).zip finals).map Prod.fst).map (fun x => x.2.1) := by
        rw [List.map_map]; rfl
    _ = (groupItems cfg tids outcomes).map (fun x => x.2.1) := by
        rw [List.map_fst_zip _ _ hflen]
    _ = ((groupItems cfg tids outcomes).map Prod.snd).map Prod.fst := by
        rw [List.map_map]; rfl
    _ = (tids.zip outcomes).map Prod.fst := by
        rw [groupItems, List.map_snd_zip _ _ h1]
    _ = tids := List.map_fst_zip _ _ h2

theorem executeTaskGroup_normal (cfg : TaskGroupConfig) (gid : Nat) (tids : List Nat)
    (moduleOk : List Bool) (outcomes : List (Except String Unit)) (now : Nat) (db : DB)
    (hg : isTaskGroupRunning cfg.groupName db = false)
    (hm : firstBadModule cfg.tasks moduleOk = none) :
    executeTaskGroup cfg gid tids moduleOk outcomes now db =
      (updateTaskGroup gid
         (if (execLoop now (groupItems cfg tids outcomes) true
                (groupDb1 cfg gid tids now db)).2.1
          then completedUpd now else stoppedUpd now)
         (execLoop now (groupItems cfg tids outcomes) true
            (groupDb1 cfg gid tids now db)).2.2,
       (execLoop now (groupItems cfg tids outcomes) true
          (groupDb1 cfg gid tids now db)).1) := by
  rw [executeTaskGroup]
  simp only [hg, hm, Bool.false_eq_true, if_false]
  by_cases hc : (execLoop now (groupItems cfg tids outcomes) true
      (groupDb1 cfg gid tids now db)).2.1
  · simp only [groupItems, groupDb1, groupDb0] at hc ⊢
    simp [hc, completedUpd]
  · simp only [groupItems, groupDb1, groupDb0] at hc ⊢
    simp [hc, stoppedUpd]

theorem startedRowFull_mem_groupDb1 (cfg : TaskGroupConfig) (gid : Nat)
    (tids : List Nat) (now : Nat) (db : DB)
    (hclean : strLt (sqliteTimestamp now) (isoTimestamp (now - 30 * 86400000)) = false) :
    startedRowFull cfg gid now ∈ (groupDb1 cfg gid tids now db).taskGroups := by
  apply insertCreatedRows_keep_group
  · show startedRowFull cfg gid now ∈ (groupDb0 cfg gid now db).taskGroups
    rw [groupDb0, insertTaskGroup]
    exact List.mem_append_right _ (List.mem_singleton.mpr rfl)
  · exact hclean

theorem groupDb1_groups_orig (cfg : TaskGroupConfig) (gid : Nat) (tids : List Nat)
    (now : Nat) (db : DB) (g : TaskGroupRow)
    (hg : g ∈ (groupDb1 cfg gid tids now db).taskGroups) :
    g ∈ db.taskGroups ∨ g = startedRowFull cfg gid now := by
  have hmem := insertCreatedRows_mem_groups _ _ _ _ _ hg
  rw [groupDb0, insertTaskGroup] at hmem
  rcases List.mem_append.mp hmem with h | h
  · exact Or.inl h
  · exact Or.inr (List.mem_singleton.mp h)

theorem updateTaskGroup_status (gid : Nat) (u : GroupUpd) (db : DB) :
    ∀ g ∈ (updateTaskGroup gid u db).taskGroups, g.taskGroupId = gid →
      g.status = u.status ∧ g.message = some u.message := by
  intro g hg hid
  rw [updateTaskGroup] at hg
  simp only [List.mem_map] at hg
  obtain ⟨g0, hg0, hg0eq⟩ := hg
  by_cases h : g0.taskGroupId == gid
  · rw [if_pos h] at hg0eq
    rw [← hg0eq]
    exact ⟨rfl, rfl⟩
  · rw [if_neg h] at hg0eq
    subst hg0eq
    exact absurd (beq_iff_eq.mpr hid) h

theorem updateTaskGroup_mem_self (gid : Nat) (u : GroupUpd) (db : DB)
    (g0 : TaskGroupRow) (hg0 : g0 ∈ db.taskGroups) (hid : g0.taskGroupId = gid) :
    applyGroupUpd u g0 ∈ (updateTaskGroup gid u db).taskGroups := by
  rw [updateTaskGroup]
  exact List.mem_map.mpr ⟨g0, hg0, by rw [if_pos (beq_iff_eq.mpr hid)]⟩

theorem applyGroupUpd_taskGroupId (u : GroupUpd) (g : TaskGroupRow) :
    (applyGroupUpd u g).taskGroupId = g.taskGroupId := rfl

theorem execLoop_cons_eta (now : Nat) (x : TaskConfig × Nat × Except String Unit)
    (rest : List (TaskConfig × Nat × Except String Unit)) (cont : Bool) (db : DB) :
    execLoop now (x :: rest) cont db =
      ((execOne now x.1 x.2.1 x.2.2 cont db).1 ::
         (execLoop now rest (execOne now x.1 x.2.1 x.2.2 cont db).2.1
            (execOne now x.1 x.2.1 x.2.2 cont db).2.2).1,
       (execLoop now rest (execOne now x.1 x.2.1 x.2.2 cont db).2.1
          (execOne now x.1 x.2.1 x.2.2 cont db).2.2).2) := rfl

theorem groupDb1_mem_tasks (cfg : TaskGroupConfig) (gid : Nat) (tids : List Nat)
    (now : Nat) (db : DB) (r : TaskRow)
    (hr : r ∈ (groupDb1 cfg gid tids now db).tasks) :
    r ∈ db.tasks ∨ r.status = TaskStatus.created := by
  rcases insertCreatedRows_mem_tasks _ _ _ _ _ hr with h | ⟨x, _, hx⟩
  · exact Or.inl h
  · right
    rw [hx]
    rfl

theorem isTerminal_not_pending {s : TaskStatus} (h : s.isTerminal = true) :
    s ≠ TaskStatus.created ∧ s ≠ TaskStatus.inProgress := by
  cases s <;> simp_all [TaskStatus.isTerminal]

theorem execLoop_kill_tail (now : Nat) (items : List (TaskConfig × Nat × Except String Unit)) :
    ∀ (db : DB) (cont : Bool) (k : Nat) (tcK : TaskConfig × Nat × Except String Unit)
      (tK : MTask),
      items[k]? = some tcK → tcK.1.killOnFail = true →
      (execLoop now items cont db).1[k]? = some tK → tK.status = TaskStatus.error →
      (execLoop now items cont db).2.1 = false ∧
      (∀ j, k < j → ∀ t, (execLoop now items cont db).1[j]? = some t →
        ∃ x, items[j]? = some x ∧ t = killSkippedTask x.1.name x.2.1) := by
  induction items with
  | nil =>
    intro db cont k tcK tK hik _ _ _
    simp at hik
  | cons x rest ih =>
    intro db cont k tcK tK hik hkill hfk herr
    cases k with
    | zero =>
      rw [List.getElem?_cons_zero] at hik
      injection hik with hik0
      rw [execLoop_cons_eta] at hfk ⊢
      rw [show ((execOne now x.1 x.2.1 x.2.2 cont db).1 ::
            (execLoop now rest (execOne now x.1 x.2.1 x.2.2 cont db).2.1
              (execOne now x.1 x.2.1 x.2.2 cont db).2.2).1,
            (execLoop now rest (execOne now x.1 x.2.1 x.2.2 cont db).2.1
              (execOne now x.1 x.2.1 x.2.2 cont db).2.2).2).1 =
          (execOne now x.1 x.2.1 x.2.2 cont db).1 ::
            (execLoop now rest (execOne now x.1 x.2.1 x.2.2 cont db).2.1
              (execOne now x.1 x.2.1 x.2.2 cont db).2.2).1 from rfl] at hfk
      rw [List.getElem?_cons_zero] at hfk
      injection hfk with hfk0
      rw [← hfk0] at herr
      have hcnext := execOne_error_cont now x.1 x.2.1 x.2.2 cont db herr
      have hkx : x.1.killOnFail = true := by rw [hik0]; exact hkill
      rw [hkx] at hcnext
      simp only [Bool.not_true] at hcnext
      constructor
      · show (execLoop now rest (execOne now x.1 x.2.1 x.2.2 cont db).2.1
            (execOne now x.1 x.2.1 x.2.2 cont db).2.2).2.1 = false
        rw [hcnext]
        exact (execLoop_dead now rest _).2
      · intro j hj t ht
        obtain ⟨j', rfl⟩ : ∃ j', j = j' + 1 := ⟨j - 1, by omega⟩
        rw [show ((execOne now x.1 x.2.1 x.2.2 cont db).1 ::
              (execLoop now rest (execOne now x.1 x.2.1 x.2.2 cont db).2.1
                (execOne now x.1 x.2.1 x.2.2 cont db).2.2).1,
              (execLoop now rest (execOne now x.1 x.2.1 x.2.2 cont db).2.1
                (execOne now x.1 x.2.1 x.2.2 cont db).2.2).2).1 =
            (execOne now x.1 x.2.1 x.2.2 cont db).1 ::
              (execLoop now rest (execOne now x.1 x.2.1 x.2.2 cont db).2.1
                (execOne now x.1 x.2.1 x.2.2 cont db).2.2).1 from rfl] at ht
        rw [List.getElem?_cons_succ] at ht
        rw [hcnext, (execLoop_dead now rest _).1, List.getElem?_map] at ht
        cases hrj : rest[j']? with
        | none => rw [hrj] at ht; cases ht
        | some y =>
          rw [hrj] at ht
          injection ht with ht0
          exact ⟨y, by rw [List.getElem?_cons_succ]; exact hrj, ht0.symm⟩
    | succ k' =>
      rw [List.getElem?_cons_succ] at hik
      rw [execLoop_cons_eta] at hfk ⊢
      rw [show ((execOne now x.1 x.2.1 x.2.2 cont db).1 ::
            (execLoop now rest (execOne now x.1 x.2.1 x.2.2 cont db).2.1
              (execOne now x.1 x.2.1 x.2.2 cont db).2.2).1,
            (execLoop now rest (execOne now x.1 x.2.1 x.2.2 cont db).2.1
              (execOne now x.1 x.2.1 x.2.2 cont db).2.2).2).1 =
          (execOne now x.1 x.2.1 x.2.2 cont db).1 ::
            (execLoop now rest (execOne now x.1 x.2.1 x.2.2 cont db).2.1
              (execOne now x.1 x.2.1 x.2.2 cont db).2.2).1 from rfl] at hfk
      rw [List.getElem?_cons_succ] at hfk
      have htail := ih (execOne now x.1 x.2.1 x.2.2 cont db).2.2
        (execOne now x.1 x.2.1 x.2.2 cont db).2.1 k' tcK tK hik hkill hfk herr
      constructor
      · exact htail.1
      · intro j hj t ht
        obtain ⟨j', rfl⟩ : ∃ j'', j = j'' + 1 := ⟨j - 1, by omega⟩
        rw [show ((execOne now x.1 x.2.1 x.2.2 cont db).1 ::
              (execLoop now rest (execOne now x.1 x.2.1 x.2.2 cont db).2.1
                (execOne now x.1 x.2.1 x.2.2 cont db).2.2).1,
              (execLoop now rest (execOne now x.1 x.2.1 x.2.2 cont db).2.1
                (execOne now x.1 x.2.1 x.2.2 cont db).2.2).2).1 =
            (execOne now x.1 x.2.1 x.2.2 cont db).1 ::
              (execLoop now rest (execOne now x.1 x.2.1 x.2.2 cont db).2.1
                (execOne now x.1 x.2.1 x.2.2 cont db).2.2).1 from rfl] at ht
        rw [List.getElem?_cons_succ] at ht
        obtain ⟨y, hy, hty⟩ := htail.2 j' (by omega) t ht
        exact ⟨y, by rw [List.getElem?_cons_succ]; exact hy, hty⟩

/-- C5 counterexample: the Task Lifecycle Object does not protect terminal
statuses — calling `skip` on a task whose status is already `completed`
(a terminal value) changes the status to `skipped`, refuting the claim that
no subsequent operation changes a terminal status. -/
theorem skip_overrides_completed :
    ((MTask.make "A" 0).setStatus .completed).status = TaskStatus.completed ∧
    ((((MTask.make "A" 0).setStatus .completed).skip "again").status = TaskStatus.skipped) ∧
    TaskStatus.completed ≠ TaskStatus.skipped := by
  refine ⟨rfl, rfl, by decide⟩

/-- C5 (amended): the lifecycle object enforces no terminal-state guard —
even when the current status is terminal (`completed`, `error` or `skipped`),
`skip` still sets `skipped`, `setStatus` still sets its argument, `setError`
still sets `error`, and `start` still drives the status to `in_progress` and
then to the hook outcome's status; terminality is purely a protocol
obligation of the caller. -/
theorem terminal_status_not_enforced (t : MTask) (_h : t.status.isTerminal = true)
    (r e : String) (s : TaskStatus) (t0 t1 : Nat) :
    (t.skip r).status = TaskStatus.skipped ∧
    (t.setStatus s).status = s ∧
    (t.setError e).status = TaskStatus.error ∧
    (t.start (.ok ()) t0 t1).status = TaskStatus.completed ∧
    (t.start (.error e) t0 t1).status = TaskStatus.error := by
  refine ⟨rfl, rfl, rfl, rfl, rfl⟩

/-- C5 witness: the amended theorem applied to a concrete task in the
terminal status `completed`. -/
theorem terminal_status_not_enforced_witness :
    (((MTask.make "B" 1).setStatus .completed).skip "x").status = TaskStatus.skipped ∧
    ((((MTask.make "B" 1).setStatus .completed).setError "boom").status = TaskStatus.error) :=
  ⟨(terminal_status_not_enforced ((MTask.make "B" 1).setStatus .completed) rfl "x" "boom"
      .created 0 0).1,
   (terminal_status_not_enforced ((MTask.make "B" 1).setStatus .completed) rfl "x" "boom"
      .created 0 0).2.2.1⟩

/-- C8: startup recovery (`markIncompleteTasksAsErrors`, invoked by both
`loadConfiguration` and `start`) turns every `in_progress` group row and
every `created` or `in_progress` task row into status `error` with the
interruption message, and leaves every other row — in particular every row
already in a terminal status — byte-for-byte unchanged. -/
theorem startup_recovery_marks_errors (db : DB) (now : Nat) :
    List.Forall₂ (fun g g' =>
        (g.status = TaskStatus.inProgress →
          g' = { g with status := .error,
                        message := some "Marked as error: Application shutdown while in progress",
                        endTime := some now }) ∧
        (g.status ≠ TaskStatus.inProgress → g' = g))
      db.taskGroups (markIncompleteTasksAsErrors now db).taskGroups ∧
    List.Forall₂ (fun r r' =>
        ((r.status = TaskStatus.created ∨ r.status = TaskStatus.inProgress) →
          r' = { r with status := .error,
                        message := some "Marked as error: Application shutdown while in progress",
                        endTime := some now }) ∧
        (r.status.isTerminal = true → r' = r))
      db.tasks (markIncompleteTasksAsErrors now db).tasks := by
  constructor
  · rw [markIncompleteTasksAsErrors]
    rw [List.forall₂_map_right_iff, List.forall₂_same]
    intro g _
    constructor
    · intro hg
      simp [hg]
    · intro hg
      simp [beq_iff_eq, hg]
  · rw [markIncompleteTasksAsErrors]
    rw [List.forall₂_map_right_iff, List.forall₂_same]
    intro r _
    constructor
    · intro hr
      rcases hr with hr | hr <;> simp [hr]
    · intro hr
      cases hs : r.status <;> simp_all [TaskStatus.isTerminal, beq_iff_eq]

/-- C8 witness: startup recovery on a concrete store holding one
`in_progress` group row, one `in_progress` task row and one `completed` task
row, at a concrete instant. -/
theorem startup_recovery_marks_errors_witness :
    List.Forall₂ (fun (g : TaskGroupRow) g' =>
        (g.status = TaskStatus.inProgress →
          g' = { g with status := .error,
                        message := some "Marked as error: Application shutdown while in progress",
                        endTime := some 5 }) ∧
        (g.status ≠ TaskStatus.inProgress → g' = g))
      [{ taskGroupId := 0, groupName := "G", status := .inProgress, message := none,
         startTime := some 1, endTime := none, stackTrace := none, createdAt := "t" }]
      (markIncompleteTasksAsErrors 5
        { taskGroups := [{ taskGroupId := 0, groupName := "G", status := .inProgress,
                           message := none, startTime := some 1, endTime := none,
                           stackTrace := none, createdAt := "t" }],
          tasks := [] }).taskGroups :=
  (startup_recovery_marks_errors
    { taskGroups := [{ taskGroupId := 0, groupName := "G", status := .inProgress,
                       message := none, startTime := some 1, endTime := none,
                       stackTrace := none, createdAt := "t" }],
      tasks := [] } 5).1

/-- C10: inserting a task run is not a pure insertion — `insertTask` first
runs the default 30-day `cleanupOldRecords`, then appends the new row to the
cleaned store; and on a concrete store this really erases an old row: with
`now = 2025-10-11T00:00:01Z`, a task row created at `2020-01-01 00:00:00`
disappears from the store when a new task is inserted. -/
theorem insertTask_runs_cleanup_first :
    (∀ (t : TaskRow) (now : Nat) (db : DB),
      insertTask t now db =
        { cleanupOldRecords 30 now db with
            tasks := (cleanupOldRecords 30 now db).tasks ++
              [{ t with createdAt := sqliteTimestamp now }] }) ∧
    (insertTask (createdRow 9 10 ({ name := "T", filePath := "p",
                                    params := ⟨none, []⟩, killOnFail := false })
        ⟨none, []⟩) 1760140801000
      { taskGroups := [],
        tasks := [{ taskGroupId := 1, taskId := 2, taskName := "old", params := ⟨none, []⟩,
                    filePath := "q", status := .completed, message := none, startTime := none,
                    endTime := none, summary := none, percentage := none,
                    createdAt := "2020-01-01 00:00:00" }] }).tasks.map TaskRow.taskId = [10] := by
  constructor
  · intro t now db
    rfl
  · rfl

/-- C3: when a `TaskGroupRun` for the same `groupName` is already
`in_progress`, `executeTaskGroup` appends exactly one new group row — status
`skipped`, message "Task group already running" — inserts no task rows, and
leaves every pre-existing row of both tables unchanged. -/
theorem duplicate_group_guard (cfg : TaskGroupConfig) (gid : Nat) (tids : List Nat)
    (moduleOk : List Bool) (outcomes : List (Except String Unit)) (now : Nat) (db : DB)
    (h : isTaskGroupRunning cfg.groupName db = true) :
    (executeTaskGroup cfg gid tids moduleOk outcomes now db).1 =
      { db with taskGroups := db.taskGroups ++
          [{ taskGroupId := gid, groupName := cfg.groupName, status := .skipped,
             message := some "Task group already running", startTime := some now,
             endTime := none, stackTrace := none, createdAt := sqliteTimestamp now }] } := by
  rw [executeTaskGroup, h]
  rfl

/-- C3 witness: the duplicate-group guard fired on a concrete store holding an
`in_progress` run of group "G". -/
theorem duplicate_group_guard_witness :
    (executeTaskGroup { groupName := "G", tasks := [] } 7 [] [] [] 3
      { taskGroups := [{ taskGroupId := 0, groupName := "G", status := .inProgress,
                         message := none, startTime := some 1, endTime := none,
                         stackTrace := none, createdAt := "c" }],
        tasks := [] }).1 =
      { taskGroups := [{ taskGroupId := 0, groupName := "G", status := .inProgress,
                         message := none, startTime := some 1, endTime := none,
                         stackTrace := none, createdAt := "c" },
                       { taskGroupId := 7, groupName := "G", status := .skipped,
                         message := some "Task group already running", startTime := some 3,
                         endTime := none, stackTrace := none,
                         createdAt := sqliteTimestamp 3 }],
        tasks := [] } :=
  duplicate_group_guard { groupName := "G", tasks := [] } 7 [] [] [] 3
    { taskGroups := [{ taskGroupId := 0, groupName := "G", status := .inProgress,
                       message := none, startTime := some 1, endTime := none,
                       stackTrace := none, createdAt := "c" }],
      tasks := [] } (by decide)

/-- C9 (code bug): `cleanupOldRecords` compares the SQLite-format `createdAt`
string ("YYYY-MM-DD HH:MM:SS") with a JavaScript ISO cutoff string
("YYYY-MM-DDTHH:MM:SS.mmmZ") lexicographically, and a space sorts below "T",
so every row created on the same UTC calendar day as the cutoff instant is
deleted even when it is newer than `now − days`.  Concretely, with
`now = 2025-10-11T00:00:01Z` and `days = 30`, a task row created at instant
`2025-09-11T23:59:59Z` — 86398 seconds newer than the cutoff instant
`now − 30 days` — is deleted. -/
theorem cleanup_deletes_newer_same_day_row :
    1760140801000 - 30 * 86400000 < 1760140801000 - 30 * 86400000 + 86398000 ∧
    sqliteTimestamp (1760140801000 - 30 * 86400000 + 86398000) = "2025-09-11 23:59:59" ∧
    isoTimestamp (1760140801000 - 30 * 86400000) = "2025-09-11T00:00:01.000Z" ∧
    (cleanupOldRecords 30 1760140801000
      { taskGroups := [],
        tasks := [{ taskGroupId := 1, taskId := 2, taskName := "T", params := ⟨none, []⟩,
                    filePath := "p", status := .completed, message := none,
                    startTime := none, endTime := none, summary := none,
                    percentage := none,
                    createdAt := sqliteTimestamp
                      (1760140801000 - 30 * 86400000 + 86398000) }] }).tasks = [] := by
  refine ⟨by decide, by rfl, by rfl, by rfl⟩

/-- C7: when the configured params lack a `lastChanged` key, the computed
`lastChanged` is the Arizona wall-clock conversion of the most recent
completed run's `startTime` minus 10 minutes when such a run (with a recorded
start time) exists, and of the fixed default `2000-01-01T00:00:00Z` when no
completed run exists — serialized with `toISOString()`. -/
theorem lastChanged_computation (tc : TaskConfig) (db : DB)
    (h : tc.params.lastChanged = none) :
    (∀ r t, getLastCompletedRun tc.name db = some r → r.startTime = some t →
        600000 ≤ t →
        (createTaskParams tc db).lastChanged =
          some (isoTimestamp (convertUtcToArizonaTime (t - 600000)))) ∧
    (getLastCompletedRun tc.name db = none →
        (createTaskParams tc db).lastChanged =
          some (isoTimestamp (convertUtcToArizonaTime 946684800000))) := by
  constructor
  · intro r t hr ht _
    simp [createTaskParams, h, computeLastChanged, hr, ht]
  · intro hr
    simp [createTaskParams, h, computeLastChanged, hr]

/-- C7 witness: a concrete store whose last completed run of task "T" started
at `2000-01-01T00:10:00Z` yields `lastChanged = 1999-12-31T17:00:00.000Z`
(start time minus 10 minutes, shifted to the fixed UTC-7 zone), and a store
with no completed run yields the same fixed-zone rendering of the year-2000
default. -/
theorem lastChanged_computation_witness :
    (createTaskParams { name := "T", filePath := "p", params := ⟨none, []⟩, killOnFail := false }
      { taskGroups := [],
        tasks := [{ taskGroupId := 0, taskId := 1, taskName := "T", params := ⟨none, []⟩,
                    filePath := "p", status := .completed, message := none,
                    startTime := some 946685400000, endTime := some 946685400000,
                    summary := none, percentage := none,
                    createdAt := "c" }] }).lastChanged =
      some "1999-12-31T17:00:00.000Z" ∧
    (createTaskParams { name := "T", filePath := "p", params := ⟨none, []⟩, killOnFail := false }
      { taskGroups := [], tasks := [] }).lastChanged =
      some "1999-12-31T17:00:00.000Z" := by
  constructor
  · have h1 := (lastChanged_computation
      { name := "T", filePath := "p", params := ⟨none, []⟩, killOnFail := false }
      { taskGroups := [],
        tasks := [{ taskGroupId := 0, taskId := 1, taskName := "T", params := ⟨none, []⟩,
                    filePath := "p", status := .completed, message := none,
                    startTime := some 946685400000, endTime := some 946685400000,
                    summary := none, percentage := none, createdAt := "c" }] } rfl).1
      { taskGroupId := 0, taskId := 1, taskName := "T", params := ⟨none, []⟩,
        filePath := "p", status := .completed, message := none,
        startTime := some 946685400000, endTime := some 946685400000,
        summary := none, percentage := none, createdAt := "c" }
      946685400000 (by rfl) rfl (by decide)
    rw [h1]
    rfl
  · have h2 := (lastChanged_computation
      { name := "T", filePath := "p", params := ⟨none, []⟩, killOnFail := false }
      { taskGroups := [], tasks := [] } rfl).2 rfl
    rw [h2]
    rfl

/-- C6: after a completed `executeTaskGroup` call — the normal path, the
module-contract-failure (exception-catching) path, or the duplicate-guard
path — every group row of this run carries a terminal status, and no task row
belonging to the run remains in status `created` or `in_progress`. -/
theorem group_terminal_no_pending_tasks
    (cfg : TaskGroupConfig) (gid : Nat) (tids : List Nat) (moduleOk : List Bool)
    (outcomes : List (Except String Unit)) (now : Nat) (db : DB)
    (hlen1 : tids.length = cfg.tasks.length)
    (hlen2 : outcomes.length = cfg.tasks.length)
    (hnodup : tids.Nodup)
    (hgidT : ∀ r ∈ db.tasks, r.taskGroupId ≠ gid)
    (hgidG : ∀ g ∈ db.taskGroups, g.taskGroupId ≠ gid) :
    (∀ g ∈ (executeTaskGroup cfg gid tids moduleOk outcomes now db).1.taskGroups,
        g.taskGroupId = gid → g.status.isTerminal = true) ∧
    (∀ r ∈ (executeTaskGroup cfg gid tids moduleOk outcomes now db).1.tasks,
        r.taskGroupId = gid →
          r.status ≠ TaskStatus.created ∧ r.status ≠ TaskStatus.inProgress) := by
  by_cases hg : isTaskGroupRunning cfg.groupName db
  · -- duplicate-guard path: one skipped group row, tasks untouched
    rw [executeTaskGroup] at *
    simp only [hg, if_true]
    constructor
    · intro g hgmem hid
      rw [insertTaskGroup] at hgmem
      rcases List.mem_append.mp hgmem with h | h
      · exact absurd hid (hgidG g h)
      · rw [List.mem_singleton.mp h]
        rfl
    · intro r hrmem hid
      exact absurd hid (hgidT r hrmem)
  · rw [Bool.not_eq_true] at hg
    cases hfm : firstBadModule cfg.tasks moduleOk with
    | some tc =>
      -- exception path: group marked error, no task rows created
      rw [executeTaskGroup]
      simp only [hg, Bool.false_eq_true, if_false, hfm]
      constructor
      · intro g hgmem hid
        have hstat := updateTaskGroup_status gid _ _ g hgmem hid
        rw [hstat.1]
        rfl
      · intro r hrmem hid
        exact absurd hid (hgidT r hrmem)
    | none =>
      rw [executeTaskGroup_normal cfg gid tids moduleOk outcomes now db hg hfm]
      constructor
      · intro g hgmem hid
        have hstat := updateTaskGroup_status gid _ _ g hgmem hid
        rw [hstat.1]
        by_cases hc : (execLoop now (groupItems cfg tids outcomes) true
            (groupDb1 cfg gid tids now db)).2.1 <;>
          simp [hc, completedUpd, stoppedUpd, TaskStatus.isTerminal]
      · intro r hrmem hid
        rw [show (updateTaskGroup gid _ (execLoop now (groupItems cfg tids outcomes) true
              (groupDb1 cfg gid tids now db)).2.2).tasks =
            (execLoop now (groupItems cfg tids outcomes) true
              (groupDb1 cfg gid tids now db)).2.2.tasks from rfl] at hrmem
        rw [execLoop_tasks] at hrmem
        obtain ⟨r0, hr0, hr0eq⟩ := List.mem_map.mp hrmem
        rcases insertCreatedRows_mem_tasks _ _ _ _ _ hr0 with horig | ⟨x, hx, hxeq⟩
        · -- a pre-existing row: its group id is not this run's
          rw [show (groupDb0 cfg gid now db).tasks = db.tasks from rfl] at horig
          have : r.taskGroupId = r0.taskGroupId := by
            rw [← hr0eq, applyUpds_taskGroupId]
          rw [this] at hid
          exact absurd hid (hgidT r0 horig)
        · -- a created row of this run: its final update carries a terminal status
          have hkeys : (loopUpds (groupItems cfg tids outcomes)
              (execLoop now (groupItems cfg tids outcomes) true
                (groupDb1 cfg gid tids now db)).1).map Prod.fst = tids := by
            apply loopUpds_keys cfg tids outcomes _ hlen1 hlen2
            rw [execLoop_length]
          have htid0 : r0.taskId = x.2.1 := by rw [hxeq]; rfl
          have hxin : x.2.1 ∈ tids := by
            have h2 := (List.of_mem_zip hx).2
            exact ((List.of_mem_zip h2).1 : x.2.1 ∈ tids)
          rw [← hkeys] at hxin
          obtain ⟨p, hp, hpk⟩ := List.mem_map.mp hxin
          have hfound : applyUpds (loopUpds (groupItems cfg tids outcomes)
              (execLoop now (groupItems cfg tids outcomes) true
                (groupDb1 cfg gid tids now db)).1) r0 = applyTaskUpd p.2 r0 := by
            apply applyUpds_found _ _ (by rw [hkeys]; exact hnodup) p hp
            rw [htid0, hpk]
          rw [hfound] at hr0eq
          obtain ⟨q, hq, hqeq⟩ := List.mem_map.mp hp
          have hterm : q.2.status.isTerminal = true := by
            apply execLoop_finals_terminal now (groupItems cfg tids outcomes) true
              (groupDb1 cfg gid tids now db)
            exact (List.of_mem_zip hq).2
          have hstat : r.status = q.2.status := by
            rw [← hr0eq, ← hqeq]
            rfl
          rw [hstat]
          exact isTerminal_not_pending hterm

/-- C6 witness: a concrete one-task run (the task's hook fails) on an empty
store; afterwards the group row is terminal and no task row of the run is
`created` or `in_progress`. -/
theorem group_terminal_no_pending_tasks_witness :
    (∀ g ∈ (executeTaskGroup cfgOne 0 [1] [true] [Except.error "boom"]
        946684800000 demoDb).1.taskGroups,
      g.taskGroupId = 0 → g.status.isTerminal = true) ∧
    (∀ r ∈ (executeTaskGroup cfgOne 0 [1] [true] [Except.error "boom"]
        946684800000 demoDb).1.tasks,
      r.taskGroupId = 0 →
        r.status ≠ TaskStatus.created ∧ r.status ≠ TaskStatus.inProgress) :=
  group_terminal_no_pending_tasks cfgOne 0 [1] [true] [Except.error "boom"]
    946684800000 demoDb
    (by decide) (by decide) (by decide)
    (by intro r hr; cases hr) (by intro g hg; cases hg)

/-- C2: when some task of a run ends in `error` but no task with
`killOnFail = true` fails, every task of the run still executes normally —
each lifecycle object runs `start` with its own hook outcome, none is
skipped — and the group run's terminal status is `completed` with the
all-tasks-completed message, even though a constituent task is `error`. -/
theorem no_propagation_without_killOnFail
    (cfg : TaskGroupConfig) (gid : Nat) (tids : List Nat) (moduleOk : List Bool)
    (outcomes : List (Except String Unit)) (now : Nat) (db : DB)
    (hg : isTaskGroupRunning cfg.groupName db = false)
    (hfm : firstBadModule cfg.tasks moduleOk = none)
    (hclean : strLt (sqliteTimestamp now) (isoTimestamp (now - 30 * 86400000)) = false)
    (hquiet : ∀ r ∈ db.tasks, r.status = TaskStatus.inProgress →
      ∀ tc ∈ cfg.tasks, r.taskName ≠ tc.name)
    (hnokill : ∀ x ∈ groupItems cfg tids outcomes,
      x.1.killOnFail = true → x.2.2 = Except.ok ())
    (_hsome : ∃ x ∈ groupItems cfg tids outcomes, ∃ e, x.2.2 = Except.error e) :
    (executeTaskGroup cfg gid tids moduleOk outcomes now db).2 =
      (groupItems cfg tids outcomes).map
        (fun x => (MTask.make x.1.name x.2.1).start x.2.2 now now) ∧
    (∀ g ∈ (executeTaskGroup cfg gid tids moduleOk outcomes now db).1.taskGroups,
      g.taskGroupId = gid → g.status = TaskStatus.completed ∧
        g.message = some "All tasks completed successfully") ∧
    (∃ g ∈ (executeTaskGroup cfg gid tids moduleOk outcomes now db).1.taskGroups,
      g.taskGroupId = gid) := by
  have hq : ∀ r ∈ (groupDb1 cfg gid tids now db).tasks,
      r.status = TaskStatus.inProgress →
      ∀ x ∈ groupItems cfg tids outcomes, r.taskName ≠ x.1.name := by
    intro r hr hst x hx
    rcases groupDb1_mem_tasks cfg gid tids now db r hr with horig | hcreated
    · exact hquiet r horig hst x.1 (List.of_mem_zip hx).1
    · rw [hcreated] at hst
      cases hst
  have hpure := execLoop_pure now (groupItems cfg tids outcomes) true
    (groupDb1 cfg gid tids now db) hq
  have hnk := pureLoop_noKill now (groupItems cfg tids outcomes) hnokill
  have hcont : (execLoop now (groupItems cfg tids outcomes) true
      (groupDb1 cfg gid tids now db)).2.1 = true := by
    rw [hpure.2, hnk.2]
  rw [executeTaskGroup_normal cfg gid tids moduleOk outcomes now db hg hfm]
  refine ⟨?_, ?_, ?_⟩
  · rw [hpure.1, hnk.1]
  · intro g hgmem hid
    rw [hcont, if_pos rfl] at hgmem
    exact updateTaskGroup_status gid (completedUpd now) _ g hgmem hid
  · refine ⟨applyGroupUpd (if (execLoop now (groupItems cfg tids outcomes) true
        (groupDb1 cfg gid tids now db)).2.1 then completedUpd now else stoppedUpd now)
        (startedRowFull cfg gid now), ?_, rfl⟩
    apply updateTaskGroup_mem_self
    · rw [execLoop_taskGroups]
      exact startedRowFull_mem_groupDb1 cfg gid tids now db hclean
    · rfl

/-- C2 witness: a concrete two-task run where the first task fails without
`killOnFail`; both tasks execute, and the group row ends `completed`. -/
theorem no_propagation_without_killOnFail_witness :
    (executeTaskGroup cfgSafe 0 [1, 2] [true, true]
        [Except.error "boom", Except.ok ()] 946684800000 demoDb).2 =
      (groupItems cfgSafe [1, 2] [Except.error "boom", Except.ok ()]).map
        (fun x => (MTask.make x.1.name x.2.1).start x.2.2 946684800000 946684800000) ∧
    (∀ g ∈ (executeTaskGroup cfgSafe 0 [1, 2] [true, true]
        [Except.error "boom", Except.ok ()] 946684800000 demoDb).1.taskGroups,
      g.taskGroupId = 0 → g.status = TaskStatus.completed ∧
        g.message = some "All tasks completed successfully") ∧
    (∃ g ∈ (executeTaskGroup cfgSafe 0 [1, 2] [true, true]
        [Except.error "boom", Except.ok ()] 946684800000 demoDb).1.taskGroups,
      g.taskGroupId = 0) :=
  no_propagation_without_killOnFail cfgSafe 0 [1, 2] [true, true]
    [Except.error "boom", Except.ok ()] 946684800000 demoDb
    (by decide) (by decide) (by decide)
    (by intro r hr; cases hr)
    (by
      intro x hx hk
      rcases List.mem_cons.mp hx with h | h
      · rw [h] at hk; cases hk
      · rcases List.mem_cons.mp h with h2 | h2
        · rw [h2] at hk; cases hk
        · cases h2)
    ⟨_, List.mem_cons_self _ _, "boom", rfl⟩

/-- C1: in a group run where task k has `killOnFail = true` and its execution
ends in status `error`, every task after k in the declared order ends with
status `skipped` — both on the lifecycle object (status, skip summary) and on
its TaskRun row (status `skipped`, message naming the prior killOnFail
failure) — and the TaskGroupRun's terminal status is `error` with the
early-stop message. -/
theorem killOnFail_skips_rest
    (cfg : TaskGroupConfig) (gid : Nat) (tids : List Nat) (moduleOk : List Bool)
    (outcomes : List (Except String Unit)) (now : Nat) (db : DB)
    (hg : isTaskGroupRunning cfg.groupName db = false)
    (hfm : firstBadModule cfg.tasks moduleOk = none)
    (hlen1 : tids.length = cfg.tasks.length)
    (hlen2 : outcomes.length = cfg.tasks.length)
    (hnodup : tids.Nodup)
    (hclean : strLt (sqliteTimestamp now) (isoTimestamp (now - 30 * 86400000)) = false)
    (k : Nat) (tcA : TaskConfig) (tA : MTask)
    (htc : cfg.tasks[k]? = some tcA)
    (hkill : tcA.killOnFail = true)
    (hA : (executeTaskGroup cfg gid tids moduleOk outcomes now db).2[k]? = some tA)
    (herr : tA.status = TaskStatus.error) :
    (∀ j, k < j →
      ∀ t, (executeTaskGroup cfg gid tids moduleOk outcomes now db).2[j]? = some t →
        t.status = TaskStatus.skipped ∧
        t.summary = some "Skipped due to previous task failure (killOnFail)") ∧
    (∀ j, k < j → j < cfg.tasks.length →
      ∃ r ∈ (executeTaskGroup cfg gid tids moduleOk outcomes now db).1.tasks,
        tids[j]? = some r.taskId ∧ r.status = TaskStatus.skipped ∧
        r.message = some "Task skipped: Skipped due to previous task failure (killOnFail)") ∧
    (∀ g ∈ (executeTaskGroup cfg gid tids moduleOk outcomes now db).1.taskGroups,
      g.taskGroupId = gid → g.status = TaskStatus.error ∧
        g.message =
          some "Task group stopped early due to task failure with killOnFail=true") ∧
    (∃ g ∈ (executeTaskGroup cfg gid tids moduleOk outcomes now db).1.taskGroups,
      g.taskGroupId = gid) := by
  obtain ⟨hk, htcg⟩ := List.getElem?_eq_some.mp htc
  have hfinals : (executeTaskGroup cfg gid tids moduleOk outcomes now db).2 =
      (execLoop now (groupItems cfg tids outcomes) true (groupDb1 cfg gid tids now db)).1 := by
    rw [executeTaskGroup_normal cfg gid tids moduleOk outcomes now db hg hfm]
  have htasks : (executeTaskGroup cfg gid tids moduleOk outcomes now db).1 =
      updateTaskGroup gid
        (if (execLoop now (groupItems cfg tids outcomes) true
              (groupDb1 cfg gid tids now db)).2.1
         then completedUpd now else stoppedUpd now)
        (execLoop now (groupItems cfg tids outcomes) true
          (groupDb1 cfg gid tids now db)).2.2 := by
    rw [executeTaskGroup_normal cfg gid tids moduleOk outcomes now db hg hfm]
  have hk1 : k < tids.length := by omega
  have hk2 : k < outcomes.length := by omega
  have hki : k < (groupItems cfg tids outcomes).length := by
    rw [groupItems, List.length_zip, List.length_zip, hlen1, hlen2,
      Nat.min_self, Nat.min_self]
    exact hk
  have hik : (groupItems cfg tids outcomes)[k]? =
      some (cfg.tasks[k], tids[k], outcomes[k]) := by
    rw [List.getElem?_eq_getElem hki]
    rw [show (groupItems cfg tids outcomes)[k] =
      (cfg.tasks[k], tids[k], outcomes[k]) from by
        simp only [groupItems, List.getElem_zip]]
  have hkillx : (cfg.tasks[k], tids[k], outcomes[k]).1.killOnFail = true := by
    show cfg.tasks[k].killOnFail = true
    rw [htcg]
    exact hkill
  have hfk : (execLoop now (groupItems cfg tids outcomes) true
      (groupDb1 cfg gid tids now db)).1[k]? = some tA := by
    rw [← hfinals]
    exact hA
  have hmain := execLoop_kill_tail now (groupItems cfg tids outcomes)
    (groupDb1 cfg gid tids now db) true k (cfg.tasks[k], tids[k], outcomes[k]) tA
    hik hkillx hfk herr
  refine ⟨?_, ?_, ?_, ?_⟩
  · -- (a) lifecycle objects of later tasks
    intro j hj t ht
    rw [hfinals] at ht
    obtain ⟨x, _, htx⟩ := hmain.2 j hj t ht
    rw [htx]
    exact ⟨rfl, rfl⟩
  · -- (b) TaskRun rows of later tasks
    intro j hj hjlen
    have hj1 : j < tids.length := by omega
    have hji : j < (groupItems cfg tids outcomes).length := by
      rw [groupItems, List.length_zip, List.length_zip, hlen1, hlen2,
        Nat.min_self, Nat.min_self]
      exact hjlen
    have hjf : j < (execLoop now (groupItems cfg tids outcomes) true
        (groupDb1 cfg gid tids now db)).1.length := by
      rw [execLoop_length]
      exact hji
    -- the created row of task j
    have hpslen : (cfg.tasks.map fun tc => createTaskParams tc (groupDb0 cfg gid now db)).length
        = cfg.tasks.length := by rw [List.length_map]
    have hjcl : j < (cfg.tasks.zip (tids.zip
        (cfg.tasks.map fun tc => createTaskParams tc (groupDb0 cfg gid now db)))).length := by
      rw [List.length_zip, List.length_zip, hlen1, hpslen, Nat.min_self, Nat.min_self]
      exact hjlen
    have hrowmem := insertCreatedRows_self_mem gid now
      (cfg.tasks.zip (tids.zip
        (cfg.tasks.map fun tc => createTaskParams tc (groupDb0 cfg gid now db))))
      hclean (groupDb0 cfg gid now db)
      ((cfg.tasks.zip (tids.zip
        (cfg.tasks.map fun tc => createTaskParams tc (groupDb0 cfg gid now db)))).get ⟨j, hjcl⟩)
      (List.get_mem _ _ hjcl)
    -- its image under the loop updates is in the final store
    have hfinal_tasks : (executeTaskGroup cfg gid tids moduleOk outcomes now db).1.tasks =
        (groupDb1 cfg gid tids now db).tasks.map
          (applyUpds (loopUpds (groupItems cfg tids outcomes)
            (execLoop now (groupItems cfg tids outcomes) true
              (groupDb1 cfg gid tids now db)).1)) := by
      rw [htasks]
      rw [show (updateTaskGroup gid _ (execLoop now (groupItems cfg tids outcomes) true
            (groupDb1 cfg gid tids now db)).2.2).tasks =
          (execLoop now (groupItems cfg tids outcomes) true
            (groupDb1 cfg gid tids now db)).2.2.tasks from rfl]
      rw [execLoop_tasks]
    refine ⟨applyUpds (loopUpds (groupItems cfg tids outcomes)
        (execLoop now (groupItems cfg tids outcomes) true
          (groupDb1 cfg gid tids now db)).1)
        (insertedRow gid now
          ((cfg.tasks.zip (tids.zip
            (cfg.tasks.map fun tc => createTaskParams tc (groupDb0 cfg gid now db)))).get
              ⟨j, hjcl⟩)), ?_, ?_, ?_, ?_⟩
    · rw [hfinal_tasks]
      exact List.mem_map_of_mem _ hrowmem
    · -- its taskId is the j-th generated id
      rw [applyUpds_taskId]
      rw [show (insertedRow gid now
          ((cfg.tasks.zip (tids.zip
            (cfg.tasks.map fun tc => createTaskParams tc (groupDb0 cfg gid now db)))).get
              ⟨j, hjcl⟩)).taskId =
          ((cfg.tasks.zip (tids.zip
            (cfg.tasks.map fun tc => createTaskParams tc (groupDb0 cfg gid now db)))).get
              ⟨j, hjcl⟩).2.1 from rfl]
      rw [List.get_eq_getElem, List.getElem_zip, List.getElem_zip]
      exact List.getElem?_eq_getElem hj1
    all_goals {
      -- the final update applied to the row comes from the j-th loop final,
      -- which is the killOnFail-skip object
      have hflen2 : (groupItems cfg tids outcomes).length ≤
          (execLoop now (groupItems cfg tids outcomes) true
            (groupDb1 cfg gid tids now db)).1.length := by
        rw [execLoop_length]
      have hkeys := loopUpds_keys cfg tids outcomes
        (execLoop now (groupItems cfg tids outcomes) true
          (groupDb1 cfg gid tids now db)).1 hlen1 hlen2 hflen2
      have hupl : j < (loopUpds (groupItems cfg tids outcomes)
          (execLoop now (groupItems cfg tids outcomes) true
            (groupDb1 cfg gid tids now db)).1).length := by
        have hlu : (loopUpds (groupItems cfg tids outcomes)
            (execLoop now (groupItems cfg tids outcomes) true
              (groupDb1 cfg gid tids now db)).1).map Prod.fst = tids := hkeys
        have := congrArg List.length hlu
        rw [List.length_map] at this
        omega
      -- the j-th loop final is a killOnFail skip
      have hfj : (execLoop now (groupItems cfg tids outcomes) true
          (groupDb1 cfg gid tids now db)).1[j]? = some
            ((execLoop now (groupItems cfg tids outcomes) true
              (groupDb1 cfg gid tids now db)).1[j]) :=
        List.getElem?_eq_getElem hjf
      obtain ⟨x, hxj, hxeq⟩ := hmain.2 j hj _ hfj
      -- the j-th update entry
      have hpj : (loopUpds (groupItems cfg tids outcomes)
          (execLoop now (groupItems cfg tids outcomes) true
            (groupDb1 cfg gid tids now db)).1)[j] =
          ((groupItems cfg tids outcomes)[j].2.1,
           taskUpdOf ((execLoop now (groupItems cfg tids outcomes) true
             (groupDb1 cfg gid tids now db)).1[j])) := by
        simp only [loopUpds, List.getElem_map, List.getElem_zip]
      have hfound : applyUpds (loopUpds (groupItems cfg tids outcomes)
          (execLoop now (groupItems cfg tids outcomes) true
            (groupDb1 cfg gid tids now db)).1)
          (insertedRow gid now
            ((cfg.tasks.zip (tids.zip
              (cfg.tasks.map fun tc => createTaskParams tc (groupDb0 cfg gid now db)))).get
                ⟨j, hjcl⟩)) =
          applyTaskUpd (taskUpdOf ((execLoop now (groupItems cfg tids outcomes) true
            (groupDb1 cfg gid tids now db)).1[j]))
          (insertedRow gid now
            ((cfg.tasks.zip (tids.zip
              (cfg.tasks.map fun tc => createTaskParams tc (groupDb0 cfg gid now db)))).get
                ⟨j, hjcl⟩)) := by
        have happ := applyUpds_found (loopUpds (groupItems cfg tids outcomes)
            (execLoop now (groupItems cfg tids outcomes) true
              (groupDb1 cfg gid tids now db)).1)
          (insertedRow gid now
            ((cfg.tasks.zip (tids.zip
              (cfg.tasks.map fun tc => createTaskParams tc (groupDb0 cfg gid now db)))).get
                ⟨j, hjcl⟩))
          (by rw [hkeys]; exact hnodup)
          ((loopUpds (groupItems cfg tids outcomes)
            (execLoop now (groupItems cfg tids outcomes) true
              (groupDb1 cfg gid tids now db)).1)[j])
          (List.getElem_mem hupl) ?_
        · rw [happ, hpj]
        · rw [hpj]
          rw [show (insertedRow gid now
              ((cfg.tasks.zip (tids.zip
                (cfg.tasks.map fun tc => createTaskParams tc (groupDb0 cfg gid now db)))).get
                  ⟨j, hjcl⟩)).taskId =
              ((cfg.tasks.zip (tids.zip
                (cfg.tasks.map fun tc => createTaskParams tc (groupDb0 cfg gid now db)))).get
                  ⟨j, hjcl⟩).2.1 from rfl]
          rw [List.get_eq_getElem, List.getElem_zip, List.getElem_zip]
          rw [show (groupItems cfg tids outcomes)[j].2.1 = tids[j] from by
            simp only [groupItems, List.getElem_zip]]
      rw [hfound]
      have hxval : (execLoop now (groupItems cfg tids outcomes) true
          (groupDb1 cfg gid tids now db)).1[j] = killSkippedTask x.1.name x.2.1 := hxeq
      rw [hxval]
      rfl
    }
  · -- (c) the group row's terminal status is error
    intro g hgmem hid
    rw [htasks] at hgmem
    rw [hmain.1, if_neg (by simp)] at hgmem
    exact updateTaskGroup_status gid (stoppedUpd now) _ g hgmem hid
  · -- (d) the group row exists
    rw [htasks]
    refine ⟨applyGroupUpd (if (execLoop now (groupItems cfg tids outcomes) true
        (groupDb1 cfg gid tids now db)).2.1 then completedUpd now else stoppedUpd now)
        (startedRowFull cfg gid now), ?_, rfl⟩
    apply updateTaskGroup_mem_self
    · rw [execLoop_taskGroups]
      exact startedRowFull_mem_groupDb1 cfg gid tids now db hclean
    · rfl

/-- C1 witness: a concrete run of a two-task group whose first task has
`killOnFail = true` and fails; the second lifecycle object ends skipped with
the killOnFail summary, and the group row ends `error`. -/
theorem killOnFail_skips_rest_witness :
    (∀ t, (executeTaskGroup cfgKill 0 [1, 2] [true, true]
        [Except.error "boom", Except.ok ()] 946684800000 demoDb).2[1]? = some t →
      t.status = TaskStatus.skipped ∧
      t.summary = some "Skipped due to previous task failure (killOnFail)") ∧
    (∀ g ∈ (executeTaskGroup cfgKill 0 [1, 2] [true, true]
        [Except.error "boom", Except.ok ()] 946684800000 demoDb).1.taskGroups,
      g.taskGroupId = 0 → g.status = TaskStatus.error ∧
        g.message =
          some "Task group stopped early due to task failure with killOnFail=true") := by
  have h := killOnFail_skips_rest cfgKill 0 [1, 2] [true, true]
    [Except.error "boom", Except.ok ()] 946684800000 demoDb
    (by decide) (by decide) (by decide) (by decide) (by decide) (by decide)
    0 tcKill ((MTask.make "T" 1).start (Except.error "boom") 946684800000 946684800000)
    (by decide) (by decide) (by rfl) (by rfl)
  exact ⟨fun t ht => h.1 1 (by decide) t ht, h.2.2.1⟩

theorem countP_map_le {α : Type} (l : List α) (f : α → α) (P : α → Bool)
    (h : ∀ r ∈ l, P (f r) = true → P r = true) :
    (l.map f).countP P ≤ l.countP P := by
  induction l with
  | nil => exact Nat.le_refl _
  | cons a l ih =>
    rw [List.map_cons, List.countP_cons, List.countP_cons]
    have hih := ih fun r hr => h r (List.mem_cons_of_mem _ hr)
    by_cases ha : P (f a)
    · rw [if_pos ha, if_pos (h a (List.mem_cons_self _ _) ha)]
      omega
    · rw [if_neg ha]
      omega

theorem countP_map_le_add {α : Type} (l : List α) (f : α → α) (P Q : α → Bool)
    (h : ∀ r ∈ l, P (f r) = true → Q r = true ∨ P r = true) :
    (l.map f).countP P ≤ l.countP Q + l.countP P := by
  induction l with
  | nil => exact Nat.le_refl _
  | cons a l ih =>
    rw [List.map_cons, List.countP_cons, List.countP_cons, List.countP_cons]
    have hih := ih fun r hr => h r (List.mem_cons_of_mem _ hr)
    by_cases ha : P (f a)
    · rcases h a (List.mem_cons_self _ _) ha with hq | hp
      · rw [if_pos ha, if_pos hq]
        omega
      · rw [if_pos ha, if_pos hp]
        omega
    · rw [if_neg ha]
      omega

theorem countP_taskId_le_one (l : List TaskRow)
    (hnd : (l.map TaskRow.taskId).Nodup) (tid : Nat) :
    l.countP (fun r => r.taskId == tid) ≤ 1 := by
  induction l with
  | nil => exact Nat.zero_le _
  | cons a l ih =>
    rw [List.map_cons, List.nodup_cons] at hnd
    rw [List.countP_cons]
    by_cases ha : a.taskId == tid
    · have hz : l.countP (fun r => r.taskId == tid) = 0 := by
        rw [List.countP_eq_zero]
        intro r hr hc
        apply hnd.1
        rw [show a.taskId = tid from beq_iff_eq.mp ha,
          show tid = r.taskId from (beq_iff_eq.mp hc).symm]
        exact List.mem_map_of_mem _ hr
      rw [hz, if_pos ha]
    · rw [if_neg ha]
      have := ih hnd.2
      omega

theorem isTaskRunning_false_count (n : String) (db : DB)
    (h : isTaskRunning n db = false) : inProgCount n db = 0 := by
  rw [inProgCount, List.countP_eq_zero]
  rw [isTaskRunning, List.any_eq_false] at h
  exact h

theorem updateTaskGroup_tasks (gid : Nat) (u : GroupUpd) (db : DB) :
    (updateTaskGroup gid u db).tasks = db.tasks := rfl

theorem updateTaskInDatabase_tasks (t : MTask) (db : DB) :
    (updateTaskInDatabase t db).tasks =
      db.tasks.map fun r =>
        if r.taskId == t.taskId then applyTaskUpd (taskUpdOf t) r else r := rfl

theorem inProgCount_insertTask_le (t : TaskRow) (now : Nat) (db : DB)
    (ht : t.status ≠ TaskStatus.inProgress) (n : String) :
    inProgCount n (insertTask t now db) ≤ inProgCount n db := by
  rw [inProgCount, inProgCount, insertTask_tasks, List.countP_append,
    cleanupOldRecords_tasks]
  have h1 : (db.tasks.filter
      (fun r => !strLt r.createdAt (isoTimestamp (now - 30 * 86400000)))).countP
      (fun row => row.taskName == n && row.status == TaskStatus.inProgress) ≤
      db.tasks.countP
        (fun row => row.taskName == n && row.status == TaskStatus.inProgress) :=
    List.Sublist.countP_le _ (List.filter_sublist _)
  have h2 : List.countP
      (fun row => row.taskName == n && row.status == TaskStatus.inProgress)
      [{ t with createdAt := sqliteTimestamp now }] = 0 := by
    rw [List.countP_eq_zero]
    intro r hr
    rw [List.mem_singleton.mp hr]
    simp only [Bool.and_eq_true, beq_iff_eq, not_and]
    intro _
    exact fun hc => ht hc
  omega

theorem inProgCount_insertCreatedRows_le (gid now : Nat)
    (lst : List (TaskConfig × Nat × Params)) :
    ∀ (db : DB) (n : String),
      inProgCount n (insertCreatedRows gid now lst db) ≤ inProgCount n db := by
  induction lst with
  | nil => intro db n; exact Nat.le_refl _
  | cons x rest ih =>
    intro db n
    obtain ⟨tc, tid, ps⟩ := x
    refine Nat.le_trans (ih _ n) ?_
    exact inProgCount_insertTask_le (createdRow gid tid tc ps) now db
      (by intro hc; cases hc) n

theorem inProgCount_update_le (t : MTask) (db : DB)
    (hst : t.status ≠ TaskStatus.inProgress) (n : String) :
    inProgCount n (updateTaskInDatabase t db) ≤ inProgCount n db := by
  rw [inProgCount, inProgCount, updateTaskInDatabase_tasks]
  apply countP_map_le
  intro r _ hp
  by_cases hid : r.taskId == t.taskId
  · rw [if_pos hid] at hp
    simp only [applyTaskUpd, taskUpdOf, Bool.and_eq_true, beq_iff_eq] at hp
    exact absurd hp.2 hst
  · rw [if_neg hid] at hp
    exact hp

theorem updateTaskInDatabase_ids (t : MTask) (db : DB) :
    (updateTaskInDatabase t db).tasks.map TaskRow.taskId = db.tasks.map TaskRow.taskId := by
  rw [updateTaskInDatabase_tasks, List.map_map]
  apply List.map_congr_left
  intro r _
  by_cases hid : r.taskId == t.taskId
  · simp [hid, Function.comp, applyTaskUpd_taskId, beq_iff_eq.mp hid]
  · simp [hid, Function.comp]

theorem nodup_insertCreatedRows (gid now : Nat) (lst : List (TaskConfig × Nat × Params)) :
    ∀ (db : DB), (db.tasks.map TaskRow.taskId).Nodup →
      (∀ x ∈ lst, ∀ row ∈ db.tasks, row.taskId ≠ x.2.1) →
      (lst.map fun x => x.2.1).Nodup →
      ((insertCreatedRows gid now lst db).tasks.map TaskRow.taskId).Nodup := by
  induction lst with
  | nil => intro db hnd _ _; exact hnd
  | cons x rest ih =>
    intro db hnd hfresh hlnd
    obtain ⟨tc, tid, ps⟩ := x
    rw [List.map_cons, List.nodup_cons] at hlnd
    apply ih
    · -- ids of the store after inserting the head row
      rw [insertTask_tasks, cleanupOldRecords_tasks, List.map_append, List.nodup_append]
      refine ⟨?_, ?_, ?_⟩
      · exact ((List.filter_sublist _).map TaskRow.taskId).nodup hnd
      · exact List.nodup_singleton _
      · intro a ha hb
        rw [show List.map TaskRow.taskId
            [{ createdRow gid tid tc ps with createdAt := sqliteTimestamp now }] =
            [tid] from rfl, List.mem_singleton] at hb
        obtain ⟨r, hr, hrid⟩ := List.mem_map.mp ha
        have hrm := (List.mem_filter.mp hr).1
        exact hfresh (tc, tid, ps) (List.mem_cons_self _ _) r hrm (by rw [hrid, hb])
    · intro y hy row hrow
      rw [insertTask_tasks, cleanupOldRecords_tasks] at hrow
      rcases List.mem_append.mp hrow with hold | hnew
      · exact hfresh y (List.mem_cons_of_mem _ hy) row (List.mem_filter.mp hold).1
      · rw [List.mem_singleton.mp hnew]
        show tid ≠ y.2.1
        intro hcontra
        apply hlnd.1
        rw [hcontra]
        exact List.mem_map.mpr ⟨y, hy, rfl⟩
    · exact hlnd.2

theorem tidsFresh_transfer (r : Run) (db db' : DB) (newIds : List Nat)
    (hsplit : ∀ row' ∈ db'.tasks,
      (∃ row ∈ db.tasks, row'.taskId = row.taskId ∧ row'.taskName = row.taskName) ∨
      row'.taskId ∈ newIds)
    (hdisj : ∀ t ∈ newIds, t ∉ r.tids)
    (h : tidsFresh r db) : tidsFresh r db' := by
  intro tid htid row' hrow'
  rcases hsplit row' hrow' with ⟨row, hrow, hid, _⟩ | hnew
  · rw [hid]
    exact h tid htid row hrow
  · intro hcontra
    exact hdisj row'.taskId hnew (hcontra ▸ htid)

theorem nameLink_transfer (r : Run) (db db' : DB) (newIds : List Nat)
    (hsplit : ∀ row' ∈ db'.tasks,
      (∃ row ∈ db.tasks, row'.taskId = row.taskId ∧ row'.taskName = row.taskName) ∨
      row'.taskId ∈ newIds)
    (hdisj : ∀ t ∈ newIds, t ∉ r.tids)
    (h : nameLink r db) : nameLink r db' := by
  intro p hp row' hrow' hid'
  rcases hsplit row' hrow' with ⟨row, hrow, hid, hname⟩ | hnew
  · rw [hname]
    exact h p hp row hrow (by rw [← hid, hid'])
  · exfalso
    rw [hid'] at hnew
    exact hdisj p.2 hnew (List.of_mem_zip hp).2

theorem runPhaseInv_transfer (r : Run) (db db' : DB) (newIds : List Nat)
    (hsplit : ∀ row' ∈ db'.tasks,
      (∃ row ∈ db.tasks, row'.taskId = row.taskId ∧ row'.taskName = row.taskName) ∨
      row'.taskId ∈ newIds)
    (hdisj : ∀ t ∈ newIds, t ∉ r.tids)
    (h : runPhaseInv r db) : runPhaseInv r db' := by
  cases hph : r.phase <;> simp only [runPhaseInv, hph] at h ⊢
  · exact h
  · exact ⟨h.1, h.2.1, tidsFresh_transfer r db db' newIds hsplit hdisj h.2.2⟩
  · exact ⟨h.1, tidsFresh_transfer r db db' newIds hsplit hdisj h.2⟩
  · exact ⟨h.1, nameLink_transfer r db db' newIds hsplit hdisj h.2⟩
  · exact ⟨h.1, nameLink_transfer r db db' newIds hsplit hdisj h.2⟩

theorem map_tid_zip3_sublist (l1 : List TaskConfig) :
    ∀ (l2 : List Nat) (l3 : List Params),
      ((l1.zip (l2.zip l3)).map fun x => x.2.1).Sublist l2 := by
  induction l1 with
  | nil => intro l2 l3; simp
  | cons a l1 ih =>
    intro l2 l3
    cases l2 with
    | nil => simp
    | cons b l2 =>
      cases l3 with
      | nil => simp
      | cons c l3 =>
        rw [List.zip_cons_cons, List.zip_cons_cons, List.map_cons]
        exact List.Sublist.cons₂ b (ih l2 l3)

theorem updateTaskInDatabase_shape (t : MTask) (db : DB) :
    ∀ row' ∈ (updateTaskInDatabase t db).tasks,
      ∃ row ∈ db.tasks, row'.taskId = row.taskId ∧ row'.taskName = row.taskName ∧
        (row'.status = t.status ∨ row' = row) := by
  intro row' hrow'
  rw [updateTaskInDatabase_tasks] at hrow'
  obtain ⟨row, hrow, hfr⟩ := List.mem_map.mp hrow'
  by_cases hid : row.taskId == t.taskId
  · rw [if_pos hid] at hfr
    exact ⟨row, hrow, by rw [← hfr]; exact rfl, by rw [← hfr]; exact rfl,
      Or.inl (by rw [← hfr]; exact rfl)⟩
  · rw [if_neg hid] at hfr
    exact ⟨row, hrow, by rw [← hfr], by rw [← hfr], Or.inr hfr.symm⟩

/-- Frame part of the invariant preservation at an `advance` step: everything
except the in-progress count, given the shape of the store change and the
new run state's own phase invariant. -/
theorem inv_frame (s : SchedState) (idx : Nat) (h : idx < s.runs.length)
    (newR : Run) (db' : DB) (c' : Nat)
    (hcfg : newR.cfg = (s.runs.get ⟨idx, h⟩).cfg)
    (htids : (newR.tids = (s.runs.get ⟨idx, h⟩).tids ∧ c' = s.counter) ∨
             (newR.tids = (s.runs.get ⟨idx, h⟩).tids ++ [s.counter] ∧ c' = s.counter + 1))
    (hsplit : ∀ row' ∈ db'.tasks,
      (∃ row ∈ s.db.tasks, row'.taskId = row.taskId ∧ row'.taskName = row.taskName) ∨
      row'.taskId ∈ (s.runs.get ⟨idx, h⟩).tids)
    (hC' : ∀ row ∈ db'.tasks, row.taskId < c')
    (hphase' : runPhaseInv newR db')
    (hinv : Inv s) :
    (∀ k (hk : k < (s.runs.set idx newR).length),
       ((s.runs.set idx newR).get ⟨k, hk⟩).tids.Nodup ∧
       (∀ tid ∈ ((s.runs.set idx newR).get ⟨k, hk⟩).tids, tid < c') ∧
       runPhaseInv ((s.runs.set idx newR).get ⟨k, hk⟩) db') ∧
    (∀ i j (hi : i < (s.runs.set idx newR).length)
       (hj : j < (s.runs.set idx newR).length), i ≠ j →
       ∀ t ∈ ((s.runs.set idx newR).get ⟨i, hi⟩).tids,
         t ∉ ((s.runs.set idx newR).get ⟨j, hj⟩).tids) := by
  obtain ⟨_, _, _, hD, hE⟩ := hinv
  have hcle : s.counter ≤ c' := by rcases htids with ⟨_, rfl⟩ | ⟨_, rfl⟩ <;> omega
  have hnewtids : ∀ t ∈ newR.tids, t ∈ (s.runs.get ⟨idx, h⟩).tids ∨ t = s.counter := by
    intro t ht
    rcases htids with ⟨he, _⟩ | ⟨he, _⟩
    · exact Or.inl (he ▸ ht)
    · rw [he] at ht
      rcases List.mem_append.mp ht with h1 | h1
      · exact Or.inl h1
      · exact Or.inr (List.mem_singleton.mp h1)
  constructor
  · intro k hk
    have hk' : k < s.runs.length := by
      rw [List.length_set] at hk
      exact hk
    by_cases hki : k = idx
    · subst hki
      have hget : (s.runs.set k newR).get ⟨k, hk⟩ = newR := by
        rw [List.get_eq_getElem]
        exact List.getElem_set_self _
      rw [hget]
      obtain ⟨hN, hLt, _⟩ := hD k hk'
      refine ⟨?_, ?_, hphase'⟩
      · rcases htids with ⟨he, _⟩ | ⟨he, _⟩
        · rw [he]; exact hN
        · rw [he]
          rw [List.nodup_append]
          refine ⟨hN, List.nodup_singleton _, ?_⟩
          intro a ha hb
          rw [List.mem_singleton.mp hb] at ha
          exact absurd (hLt _ ha) (Nat.lt_irrefl _)
      · intro tid ht
        rcases htids with ⟨he, hc⟩ | ⟨he, hc⟩
        · subst hc
          rw [he] at ht
          exact hLt tid ht
        · subst hc
          rw [he] at ht
          rcases List.mem_append.mp ht with h1 | h1
          · exact Nat.lt_succ_of_lt (hLt tid h1)
          · rw [List.mem_singleton.mp h1]
            exact Nat.lt_succ_self _
    · have hget : (s.runs.set idx newR).get ⟨k, hk⟩ = s.runs.get ⟨k, hk'⟩ := by
        rw [List.get_eq_getElem, List.get_eq_getElem]
        exact List.getElem_set_ne (fun hc => hki hc.symm) _
      rw [hget]
      obtain ⟨hN, hLt, hPh⟩ := hD k hk'
      refine ⟨hN, fun tid ht => Nat.lt_of_lt_of_le (hLt tid ht) hcle, ?_⟩
      exact runPhaseInv_transfer _ s.db db' _ hsplit
        (hE idx k h hk' (fun hc => hki hc.symm)) hPh
  · intro i j hi hj hij t hti
    have hi' : i < s.runs.length := by rw [List.length_set] at hi; exact hi
    have hj' : j < s.runs.length := by rw [List.length_set] at hj; exact hj
    by_cases hii : i = idx
    · subst hii
      have hgi : (s.runs.set i newR).get ⟨i, hi⟩ = newR := by
        rw [List.get_eq_getElem]; exact List.getElem_set_self _
      have hgj : (s.runs.set i newR).get ⟨j, hj⟩ = s.runs.get ⟨j, hj'⟩ := by
        rw [List.get_eq_getElem, List.get_eq_getElem]
        exact List.getElem_set_ne hij _
      rw [hgi] at hti
      rw [hgj]
      rcases hnewtids t hti with h1 | h1
      · exact hE i j hi' hj' hij t h1
      · intro hc
        obtain ⟨_, hLtj, _⟩ := hD j hj'
        exact absurd (hLtj t hc) (by rw [h1]; exact Nat.lt_irrefl _)
    · have hgi : (s.runs.set idx newR).get ⟨i, hi⟩ = s.runs.get ⟨i, hi'⟩ := by
        rw [List.get_eq_getElem, List.get_eq_getElem]
        exact List.getElem_set_ne (fun hc => hii hc.symm) _
      rw [hgi] at hti
      by_cases hjj : j = idx
      · subst hjj
        have hgj : (s.runs.set j newR).get ⟨j, hj⟩ = newR := by
          rw [List.get_eq_getElem]; exact List.getElem_set_self _
        rw [hgj]
        intro hc
        rcases hnewtids t hc with h1 | h1
        · exact hE i j hi' hj' hij t hti h1
        · obtain ⟨_, hLti, _⟩ := hD i hi'
          exact absurd (hLti t hti) (by rw [h1]; exact Nat.lt_irrefl _)
      · have hgj : (s.runs.set idx newR).get ⟨j, hj⟩ = s.runs.get ⟨j, hj'⟩ := by
          rw [List.get_eq_getElem, List.get_eq_getElem]
          exact List.getElem_set_ne (fun hc => hjj hc.symm) _
        rw [hgj]
        exact hE i j hi' hj' hij t hti

theorem start_status_terminal (t : MTask) (oc : Except String Unit) (t0 t1 : Nat) :
    ((t.start oc t0 t1).status).isTerminal = true := by
  cases oc <;> rfl

theorem skip_status (t : MTask) (reason : String) :
    (t.skip reason).status = TaskStatus.skipped := rfl

theorem same_db_split (db : DB) :
    ∀ row' ∈ db.tasks,
      (∃ row ∈ db.tasks, row'.taskId = row.taskId ∧ row'.taskName = row.taskName) ∨
      row'.taskId ∈ ([] : List Nat) :=
  fun row' h' => Or.inl ⟨row', h', rfl, rfl⟩

theorem update_db_split (t : MTask) (db : DB) :
    ∀ row' ∈ (updateTaskInDatabase t db).tasks,
      (∃ row ∈ db.tasks, row'.taskId = row.taskId ∧ row'.taskName = row.taskName) ∨
      row'.taskId ∈ ([] : List Nat) := by
  intro row' h'
  obtain ⟨row, hrow, hid, hname, _⟩ := updateTaskInDatabase_shape t db row' h'
  exact Or.inl ⟨row, hrow, hid, hname⟩

theorem update_ids_lt (t : MTask) (db : DB) (c : Nat)
    (hC : ∀ row ∈ db.tasks, row.taskId < c) :
    ∀ row ∈ (updateTaskInDatabase t db).tasks, row.taskId < c := by
  intro row' h'
  obtain ⟨row, hrow, hid, _, _⟩ := updateTaskInDatabase_shape t db row' h'
  rw [hid]
  exact hC row hrow

theorem update_nodup (t : MTask) (db : DB)
    (hB : (db.tasks.map TaskRow.taskId).Nodup) :
    ((updateTaskInDatabase t db).tasks.map TaskRow.taskId).Nodup := by
  rw [updateTaskInDatabase_ids]
  exact hB

theorem weaken_split (db db' : DB) (ids : List Nat)
    (h : ∀ row' ∈ db'.tasks,
      (∃ row ∈ db.tasks, row'.taskId = row.taskId ∧ row'.taskName = row.taskName) ∨
      row'.taskId ∈ ([] : List Nat)) :
    ∀ row' ∈ db'.tasks,
      (∃ row ∈ db.tasks, row'.taskId = row.taskId ∧ row'.taskName = row.taskName) ∨
      row'.taskId ∈ ids := by
  intro row' h'
  rcases h row' h' with hl | hr
  · exact Or.inl hl
  · cases hr


theorem inProgCount_update_le_one (t : MTask) (db : DB)
    (hA : ∀ m, inProgCount m db ≤ 1)
    (hB : (db.tasks.map TaskRow.taskId).Nodup)
    (hrun : isTaskRunning t.taskName db = false)
    (hlink : ∀ row ∈ db.tasks, row.taskId = t.taskId → row.taskName = t.taskName)
    (n : String) :
    inProgCount n (updateTaskInDatabase t db) ≤ 1 := by
  by_cases hn : n = t.taskName
  · subst hn
    rw [inProgCount, updateTaskInDatabase_tasks]
    have hle := countP_map_le_add db.tasks
      (fun r => if r.taskId == t.taskId then applyTaskUpd (taskUpdOf t) r else r)
      (fun row => row.taskName == t.taskName && row.status == TaskStatus.inProgress)
      (fun row => row.taskId == t.taskId)
      (by
        intro row hrow hp
        by_cases hid : row.taskId == t.taskId
        · exact Or.inl hid
        · have hp1 : (fun row => row.taskName == t.taskName &&
              row.status == TaskStatus.inProgress)
              (if (row.taskId == t.taskId) = true then applyTaskUpd (taskUpdOf t) row
                else row) = true := hp
          rw [if_neg hid] at hp1
          exact Or.inr hp1)
    have hc1 := countP_taskId_le_one db.tasks hB t.taskId
    have hc0 := isTaskRunning_false_count t.taskName db hrun
    rw [inProgCount] at hc0
    omega
  · rw [inProgCount, updateTaskInDatabase_tasks]
    have hle := countP_map_le db.tasks
      (fun r => if r.taskId == t.taskId then applyTaskUpd (taskUpdOf t) r else r)
      (fun row => row.taskName == n && row.status == TaskStatus.inProgress)
      (by
        intro row hrow hp
        by_cases hid : row.taskId == t.taskId
        · exfalso
          have hp1 : (fun row => row.taskName == n &&
              row.status == TaskStatus.inProgress)
              (if (row.taskId == t.taskId) = true then applyTaskUpd (taskUpdOf t) row
                else row) = true := hp
          rw [if_pos hid] at hp1
          have hp2 : ((applyTaskUpd (taskUpdOf t) row).taskName == n &&
              (applyTaskUpd (taskUpdOf t) row).status == TaskStatus.inProgress) = true := hp1
          simp only [Bool.and_eq_true, beq_iff_eq] at hp2
          have hname := hlink row hrow (beq_iff_eq.mp hid)
          rw [show (applyTaskUpd (taskUpdOf t) row).taskName = row.taskName
            from rfl] at hp2
          exact hn (by rw [← hp2.1, hname])
        · have hp1 : (fun row => row.taskName == n &&
              row.status == TaskStatus.inProgress)
              (if (row.taskId == t.taskId) = true then applyTaskUpd (taskUpdOf t) row
                else row) = true := hp
          rw [if_neg hid] at hp1
          exact hp1)
    exact Nat.le_trans hle (hA n)

theorem inv_advance (s : SchedState) (idx : Nat) (h : idx < s.runs.length)
    (hinv : Inv s) :
    Inv { db := (stepRun (s.runs.get ⟨idx, h⟩) s.db s.counter).2.1,
          counter := (stepRun (s.runs.get ⟨idx, h⟩) s.db s.counter).2.2,
          runs := s.runs.set idx (stepRun (s.runs.get ⟨idx, h⟩) s.db s.counter).1 } := by
  have hcopy := hinv
  obtain ⟨hA, hB, hC, hD, hE⟩ := hcopy
  obtain ⟨hrN, hrLt, hrPh⟩ := hD idx h
  cases hph : (s.runs.get ⟨idx, h⟩).phase with
  | ready =>
    simp only [runPhaseInv, hph] at hrPh
    by_cases hg : isTaskGroupRunning (s.runs.get ⟨idx, h⟩).cfg.groupName s.db
    · simp only [stepRun, hph, hg, if_true]
      refine ⟨hA, hB, hC, ?_⟩
      apply inv_frame s idx h
      · exact rfl
      · exact Or.inl ⟨rfl, rfl⟩
      · exact weaken_split s.db _ _ (same_db_split s.db)
      · exact hC
      · exact trivial
      · exact hinv
    · simp only [stepRun, hph, hg, Bool.false_eq_true, if_false]
      refine ⟨hA, hB, hC, ?_⟩
      apply inv_frame s idx h
      · exact rfl
      · exact Or.inl ⟨rfl, rfl⟩
      · exact weaken_split s.db _ _ (same_db_split s.db)
      · exact hC
      · refine ⟨?_, Nat.zero_le _, ?_⟩
        · show (s.runs.get ⟨idx, h⟩).tids.length = 0
          rw [hrPh]
          rfl
        · intro tid ht row hrow
          rw [show ({ s.runs.get ⟨idx, h⟩ with phase := RunPhase.creating 0 } : Run).tids
            = (s.runs.get ⟨idx, h⟩).tids from rfl, hrPh] at ht
          cases ht
      · exact hinv
  | creating i =>
    simp only [runPhaseInv, hph] at hrPh
    obtain ⟨hlen, hile, hfresh⟩ := hrPh
    by_cases hi : i < (s.runs.get ⟨idx, h⟩).cfg.tasks.length
    · by_cases hok : (s.runs.get ⟨idx, h⟩).moduleOk.getD i true
      · -- module loads fine: a fresh task id is drawn
        simp only [stepRun, hph, hi, dif_pos, hok, if_true]
        refine ⟨hA, hB, fun row hrow => Nat.lt_succ_of_lt (hC row hrow), ?_⟩
        apply inv_frame s idx h
        · exact rfl
        · exact Or.inr ⟨rfl, rfl⟩
        · exact weaken_split s.db _ _ (same_db_split s.db)
        · exact fun row hrow => Nat.lt_succ_of_lt (hC row hrow)
        · refine ⟨?_, hi, ?_⟩
          · show ((s.runs.get ⟨idx, h⟩).tids ++ [s.counter]).length = i + 1
            rw [List.length_append, hlen]
            rfl
          · intro tid ht row hrow
            rw [show ({ s.runs.get ⟨idx, h⟩ with
                tids := (s.runs.get ⟨idx, h⟩).tids ++ [s.counter],
                ps := (s.runs.get ⟨idx, h⟩).ps ++
                  [createTaskParams ((s.runs.get ⟨idx, h⟩).cfg.tasks.get ⟨i, hi⟩) s.db],
                phase := RunPhase.creating (i + 1) } : Run).tids
              = (s.runs.get ⟨idx, h⟩).tids ++ [s.counter] from rfl] at ht
            rcases List.mem_append.mp ht with h1 | h1
            · exact hfresh tid h1 row hrow
            · rw [List.mem_singleton.mp h1]
              intro hc
              exact absurd (hC row hrow) (by rw [hc]; exact Nat.lt_irrefl _)
        · exact hinv
      · -- module contract failure: the run aborts, marking the group errored
        simp only [stepRun, hph, hi, dif_pos, hok, Bool.false_eq_true, if_false]
        refine ⟨hA, hB, hC, ?_⟩
        apply inv_frame s idx h
        · exact rfl
        · exact Or.inl ⟨rfl, rfl⟩
        · exact weaken_split s.db _ _ (same_db_split s.db)
        · exact hC
        · exact trivial
        · exact hinv
    · -- all tasks created: move to the insert phase
      simp only [stepRun, hph, hi, dif_neg]
      refine ⟨hA, hB, hC, ?_⟩
      apply inv_frame s idx h
      · exact rfl
      · exact Or.inl ⟨rfl, rfl⟩
      · exact weaken_split s.db _ _ (same_db_split s.db)
      · exact hC
      · refine ⟨?_, hfresh⟩
        show (s.runs.get ⟨idx, h⟩).tids.length =
          (s.runs.get ⟨idx, h⟩).cfg.tasks.length
        omega
      · exact hinv
  | inserting =>
    simp only [runPhaseInv, hph] at hrPh
    obtain ⟨hlen, hfresh⟩ := hrPh
    simp only [stepRun, hph]
    have hfreshx : ∀ x ∈ (s.runs.get ⟨idx, h⟩).cfg.tasks.zip
        ((s.runs.get ⟨idx, h⟩).tids.zip (s.runs.get ⟨idx, h⟩).ps),
        ∀ row ∈ s.db.tasks, row.taskId ≠ x.2.1 := by
      intro x hx row hrow
      exact hfresh x.2.1 (List.of_mem_zip (List.of_mem_zip hx).2).1 row hrow
    have hzipnd : (((s.runs.get ⟨idx, h⟩).cfg.tasks.zip
        ((s.runs.get ⟨idx, h⟩).tids.zip (s.runs.get ⟨idx, h⟩).ps)).map
          fun x => x.2.1).Nodup :=
      List.Nodup.sublist (map_tid_zip3_sublist _ _ _) hrN
    have hB' := nodup_insertCreatedRows (s.runs.get ⟨idx, h⟩).gid
      (s.runs.get ⟨idx, h⟩).now _ s.db hB hfreshx hzipnd
    have hC' : ∀ row ∈ (insertCreatedRows (s.runs.get ⟨idx, h⟩).gid
        (s.runs.get ⟨idx, h⟩).now
        ((s.runs.get ⟨idx, h⟩).cfg.tasks.zip
          ((s.runs.get ⟨idx, h⟩).tids.zip (s.runs.get ⟨idx, h⟩).ps)) s.db).tasks,
        row.taskId < s.counter := by
      intro row hrow
      rcases insertCreatedRows_mem_tasks _ _ _ _ _ hrow with hold | ⟨x, hx, hxr⟩
      · exact hC row hold
      · rw [hxr]
        exact hrLt x.2.1 (List.of_mem_zip (List.of_mem_zip hx).2).1
    have hsplit : ∀ row' ∈ (insertCreatedRows (s.runs.get ⟨idx, h⟩).gid
        (s.runs.get ⟨idx, h⟩).now
        ((s.runs.get ⟨idx, h⟩).cfg.tasks.zip
          ((s.runs.get ⟨idx, h⟩).tids.zip (s.runs.get ⟨idx, h⟩).ps)) s.db).tasks,
        (∃ row ∈ s.db.tasks, row'.taskId = row.taskId ∧ row'.taskName = row.taskName) ∨
        row'.taskId ∈ (s.runs.get ⟨idx, h⟩).tids := by
      intro row' hrow'
      rcases insertCreatedRows_mem_tasks _ _ _ _ _ hrow' with hold | ⟨x, hx, hxr⟩
      · exact Or.inl ⟨row', hold, rfl, rfl⟩
      · refine Or.inr ?_
        rw [hxr]
        exact (List.of_mem_zip (List.of_mem_zip hx).2).1
    refine ⟨fun n => Nat.le_trans (inProgCount_insertCreatedRows_le _ _ _ s.db n) (hA n),
      hB', hC', ?_⟩
    apply inv_frame s idx h
    · exact rfl
    · exact Or.inl ⟨rfl, rfl⟩
    · exact hsplit
    · exact hC'
    · refine ⟨hlen, ?_⟩
      intro p hp row' hrow' hid
      have hp2 : p ∈ (s.runs.get ⟨idx, h⟩).cfg.tasks.zip (s.runs.get ⟨idx, h⟩).tids := hp
      rcases insertCreatedRows_mem_tasks _ _ _ _ _ hrow' with hold | ⟨x, hx, hxr⟩
      · exact absurd hid (hfresh p.2 (List.of_mem_zip hp2).2 row' hold)
      · obtain ⟨j, hj, hjx⟩ := List.mem_iff_getElem.mp hx
        obtain ⟨j', hj', hj'p⟩ := List.mem_iff_getElem.mp hp2
        rw [List.getElem_zip, List.getElem_zip] at hjx
        rw [List.getElem_zip] at hj'p
        have hjt : j < (s.runs.get ⟨idx, h⟩).tids.length := by
          rw [List.length_zip, List.length_zip] at hj
          omega
        have hj't : j' < (s.runs.get ⟨idx, h⟩).tids.length := by
          rw [List.length_zip] at hj'
          omega
        have hidx : row'.taskId = (s.runs.get ⟨idx, h⟩).tids[j] := by
          rw [hxr, ← hjx]
          rfl
        have hpx : p.2 = (s.runs.get ⟨idx, h⟩).tids[j'] := by
          rw [← hj'p]
        have hjj : j = j' := by
          rw [hidx, hpx] at hid
          exact (List.Nodup.getElem_inj_iff hrN).mp hid
        subst hjj
        have hname : row'.taskName = (s.runs.get ⟨idx, h⟩).cfg.tasks[j].name := by
          rw [hxr, ← hjx]
          rfl
        rw [hname, ← hj'p]
    · exact hinv
  | executing i cont =>
    simp only [runPhaseInv, hph] at hrPh
    obtain ⟨hlen, hlink⟩ := hrPh
    by_cases hi : i < (s.runs.get ⟨idx, h⟩).cfg.tasks.length
    · by_cases hcont : cont
      · by_cases hrun : isTaskRunning
            ((s.runs.get ⟨idx, h⟩).cfg.tasks.get ⟨i, hi⟩).name s.db
        · -- duplicate-task guard fires: the task is skipped
          simp only [stepRun, hph, hi, dif_pos, hcont, Bool.not_true,
            Bool.false_eq_true, if_false, hrun, if_true]
          refine ⟨fun n => Nat.le_trans
              (inProgCount_update_le _ _ (fun hc => TaskStatus.noConfusion hc) n) (hA n),
            update_nodup _ _ hB, update_ids_lt _ _ _ hC, ?_⟩
          apply inv_frame s idx h
          · exact rfl
          · exact Or.inl ⟨rfl, rfl⟩
          · exact weaken_split s.db _ _ (update_db_split _ s.db)
          · exact update_ids_lt _ _ _ hC
          · refine ⟨hlen, ?_⟩
            exact nameLink_transfer _ s.db _ []
              (update_db_split _ s.db) (fun t ht => absurd ht (List.not_mem_nil t))
              hlink
          · exact hinv
        · -- the task starts: its row is flipped to in_progress
          simp only [stepRun, hph, hi, dif_pos, hcont, Bool.not_true,
            Bool.false_eq_true, if_false, hrun, if_false]
          have hit : i < (s.runs.get ⟨idx, h⟩).tids.length := by omega
          have htidv : (s.runs.get ⟨idx, h⟩).tids.getD i 0 =
              (s.runs.get ⟨idx, h⟩).tids.get ⟨i, hit⟩ :=
            List.getD_eq_getElem _ _ hit
          have hrowname : ∀ row ∈ s.db.tasks,
              row.taskId = (s.runs.get ⟨idx, h⟩).tids.getD i 0 →
              row.taskName = ((s.runs.get ⟨idx, h⟩).cfg.tasks.get ⟨i, hi⟩).name := by
            intro row hrow hid
            have hpmem : ((s.runs.get ⟨idx, h⟩).cfg.tasks.get ⟨i, hi⟩,
                (s.runs.get ⟨idx, h⟩).tids.get ⟨i, hit⟩) ∈
                (s.runs.get ⟨idx, h⟩).cfg.tasks.zip (s.runs.get ⟨idx, h⟩).tids := by
              rw [List.mem_iff_getElem]
              refine ⟨i, by rw [List.length_zip]; omega, ?_⟩
              rw [List.getElem_zip]
              exact rfl
            exact hlink _ hpmem row hrow (by rw [hid, htidv])
          refine ⟨?_, update_nodup _ _ hB, update_ids_lt _ _ _ hC, ?_⟩
          · -- the in-progress count stays at most one for every name
            intro n
            exact inProgCount_update_le_one
              ((MTask.make ((s.runs.get ⟨idx, h⟩).cfg.tasks.get ⟨i, hi⟩).name
                ((s.runs.get ⟨idx, h⟩).tids.getD i 0)).startPrologue
                  (s.runs.get ⟨idx, h⟩).now)
              s.db hA hB (Bool.eq_false_iff.mpr hrun) hrowname n
          · apply inv_frame s idx h
            · exact rfl
            · exact Or.inl ⟨rfl, rfl⟩
            · exact weaken_split s.db _ _ (update_db_split _ s.db)
            · exact update_ids_lt _ _ _ hC
            · refine ⟨hlen, ?_⟩
              exact nameLink_transfer _ s.db _ []
                (update_db_split _ s.db) (fun t ht => absurd ht (List.not_mem_nil t))
                hlink
            · exact hinv
      · -- shouldContinue is false: the task is skipped
        simp only [stepRun, hph, hi, dif_pos, Bool.not_eq_true', eq_false_of_ne_true hcont,
          Bool.not_false, if_true]
        refine ⟨fun n => Nat.le_trans
            (inProgCount_update_le _ _ (fun hc => TaskStatus.noConfusion hc) n) (hA n),
          update_nodup _ _ hB, update_ids_lt _ _ _ hC, ?_⟩
        apply inv_frame s idx h
        · exact rfl
        · exact Or.inl ⟨rfl, rfl⟩
        · exact weaken_split s.db _ _ (update_db_split _ s.db)
        · exact update_ids_lt _ _ _ hC
        · refine ⟨hlen, ?_⟩
          exact nameLink_transfer _ s.db _ []
            (update_db_split _ s.db) (fun t ht => absurd ht (List.not_mem_nil t))
            hlink
        · exact hinv
    · -- loop exhausted: terminal group update
      simp only [stepRun, hph, hi, dif_neg]
      refine ⟨hA, hB, hC, ?_⟩
      apply inv_frame s idx h
      · exact rfl
      · exact Or.inl ⟨rfl, rfl⟩
      · exact weaken_split s.db _ _ (same_db_split s.db)
      · exact hC
      · exact trivial
      · exact hinv
  | running i cont =>
    simp only [runPhaseInv, hph] at hrPh
    obtain ⟨hlen, hlink⟩ := hrPh
    simp only [stepRun, hph]
    refine ⟨?_, update_nodup _ _ hB, update_ids_lt _ _ _ hC, ?_⟩
    · intro n
      refine Nat.le_trans (inProgCount_update_le _ _ ?_ n) (hA n)
      exact isTerminal_ne_inProgress (start_status_terminal _ _ _ _)
    · apply inv_frame s idx h
      · exact rfl
      · exact Or.inl ⟨rfl, rfl⟩
      · exact weaken_split s.db _ _ (update_db_split _ s.db)
      · exact update_ids_lt _ _ _ hC
      · refine ⟨hlen, ?_⟩
        exact nameLink_transfer _ s.db _ []
          (update_db_split _ s.db) (fun t ht => absurd ht (List.not_mem_nil t))
          hlink
      · exact hinv
  | done =>
    simp only [stepRun, hph]
    refine ⟨hA, hB, hC, ?_⟩
    apply inv_frame s idx h
    · exact rfl
    · exact Or.inl ⟨rfl, rfl⟩
    · exact weaken_split s.db _ _ (same_db_split s.db)
    · exact hC
    · exact hrPh
    · exact hinv


theorem inv_spawn (cfg : TaskGroupConfig) (moduleOk : List Bool)
    (outcomes : List (Except String Unit)) (now : Nat) (s : SchedState)
    (hinv : Inv s) :
    Inv { db := s.db, counter := s.counter + 1,
          runs := s.runs ++ [mkRun cfg moduleOk outcomes now s.counter] } := by
  obtain ⟨hA, hB, hC, hD, hE⟩ := hinv
  refine ⟨hA, hB, fun row hrow => Nat.lt_succ_of_lt (hC row hrow), ?_, ?_⟩
  · intro k hk
    by_cases hk2 : k < s.runs.length
    · have hget : (s.runs ++ [mkRun cfg moduleOk outcomes now s.counter]).get ⟨k, hk⟩
          = s.runs.get ⟨k, hk2⟩ := by
        rw [List.get_eq_getElem, List.get_eq_getElem]
        exact List.getElem_append_left hk2
      rw [hget]
      obtain ⟨hN, hLt, hPh⟩ := hD k hk2
      exact ⟨hN, fun tid ht => Nat.lt_succ_of_lt (hLt tid ht), hPh⟩
    · have hkeq : k = s.runs.length := by
        have := hk
        rw [List.length_append] at this
        simp only [List.length_singleton] at this
        omega
      have hget : (s.runs ++ [mkRun cfg moduleOk outcomes now s.counter]).get ⟨k, hk⟩
          = mkRun cfg moduleOk outcomes now s.counter := by
        rw [List.get_eq_getElem]
        subst hkeq
        exact List.getElem_concat_length _ _ _ rfl _
      rw [hget]
      refine ⟨List.nodup_nil, ?_, rfl⟩
      intro tid ht
      cases ht
  · intro i j hi hj hij t hti
    by_cases hj2 : j < s.runs.length
    · have hgetj : (s.runs ++ [mkRun cfg moduleOk outcomes now s.counter]).get ⟨j, hj⟩
          = s.runs.get ⟨j, hj2⟩ := by
        rw [List.get_eq_getElem, List.get_eq_getElem]
        exact List.getElem_append_left hj2
      rw [hgetj]
      by_cases hi2 : i < s.runs.length
      · have hgeti : (s.runs ++ [mkRun cfg moduleOk outcomes now s.counter]).get ⟨i, hi⟩
            = s.runs.get ⟨i, hi2⟩ := by
          rw [List.get_eq_getElem, List.get_eq_getElem]
          exact List.getElem_append_left hi2
        rw [hgeti] at hti
        exact hE i j hi2 hj2 hij t hti
      · exfalso
        have hieq : i = s.runs.length := by
          have := hi
          rw [List.length_append] at this
          simp only [List.length_singleton] at this
          omega
        have hgeti : (s.runs ++ [mkRun cfg moduleOk outcomes now s.counter]).get ⟨i, hi⟩
            = mkRun cfg moduleOk outcomes now s.counter := by
          rw [List.get_eq_getElem]
          subst hieq
          exact List.getElem_concat_length _ _ _ rfl _
        rw [hgeti] at hti
        cases hti
    · have hjeq : j = s.runs.length := by
        have := hj
        rw [List.length_append] at this
        simp only [List.length_singleton] at this
        omega
      have hgetj : (s.runs ++ [mkRun cfg moduleOk outcomes now s.counter]).get ⟨j, hj⟩
          = mkRun cfg moduleOk outcomes now s.counter := by
        rw [List.get_eq_getElem]
        subst hjeq
        exact List.getElem_concat_length _ _ _ rfl _
      rw [hgetj]
      intro hc
      cases hc

theorem step_preserves_inv {s s' : SchedState} (hs : Step s s') (hinv : Inv s) :
    Inv s' := by
  cases hs with
  | spawn cfg moduleOk outcomes now => exact inv_spawn cfg moduleOk outcomes now s hinv
  | advance idx _ h2 => exact inv_advance s idx h2 hinv

theorem init_inv (s : SchedState) (h : InitState s) : Inv s := by
  obtain ⟨hruns, hnoprog, hnd, hlt⟩ := h
  refine ⟨?_, hnd, hlt, ?_, ?_⟩
  · intro n
    rw [inProgCount]
    have hz : s.db.tasks.countP
        (fun row => row.taskName == n && row.status == TaskStatus.inProgress) = 0 := by
      rw [List.countP_eq_zero]
      intro row hrow hc
      simp only [Bool.and_eq_true, beq_iff_eq] at hc
      exact hnoprog row hrow hc.2
    omega
  · intro k hk
    exact absurd hk (by rw [hruns]; simp)
  · intro i j hi hj hij t ht
    exact absurd hi (by rw [hruns]; simp)

theorem reachable_inv (s0 s : SchedState) (h0 : InitState s0)
    (hr : Reachable s0 s) : Inv s := by
  induction hr with
  | refl => exact init_inv s0 h0
  | tail hr hstep ih => exact step_preserves_inv hstep ih

/-- C4: In every state of the scheduler's step relation (single-threaded
interleaving of group executions) reachable from a post-startup state, every
distinct task name has at most one `in_progress` task row; and when a run is
about to start a task whose name already has an `in_progress` row (the
`isTaskRunning` guard fires), the step records the task as skipped with
reason "Task already running" and moves past it without starting it. -/
theorem at_most_one_in_progress (s0 s : SchedState) (h0 : InitState s0)
    (hr : Reachable s0 s) :
    (∀ n, inProgCount n s.db ≤ 1) ∧
    (∀ idx (h : idx < s.runs.length) i cont
       (hi : i < (s.runs.get ⟨idx, h⟩).cfg.tasks.length),
       (s.runs.get ⟨idx, h⟩).phase = RunPhase.executing i cont →
       cont = true →
       isTaskRunning ((s.runs.get ⟨idx, h⟩).cfg.tasks.get ⟨i, hi⟩).name s.db = true →
       stepRun (s.runs.get ⟨idx, h⟩) s.db s.counter =
         ({ s.runs.get ⟨idx, h⟩ with phase := RunPhase.executing (i + 1) true },
          updateTaskInDatabase
            ((MTask.make ((s.runs.get ⟨idx, h⟩).cfg.tasks.get ⟨i, hi⟩).name
              ((s.runs.get ⟨idx, h⟩).tids.getD i 0)).skip "Task already running") s.db,
          s.counter)) := by
  refine ⟨(reachable_inv s0 s h0 hr).1, ?_⟩
  intro idx h i cont hi hph hcont hrun
  subst hcont
  simp only [stepRun, hph, hi, dif_pos, Bool.not_true, Bool.false_eq_true, if_false,
    hrun, if_true]

theorem at_most_one_in_progress_witness :
    InitState { db := demoDb, counter := 0, runs := [] } ∧
    (∀ n, inProgCount n demoDb ≤ 1) := by
  have h0 : InitState { db := demoDb, counter := 0, runs := [] } :=
    ⟨rfl, fun row hrow => absurd hrow (List.not_mem_nil row), List.nodup_nil,
     fun row hrow => absurd hrow (List.not_mem_nil row)⟩
  exact ⟨h0, (at_most_one_in_progress { db := demoDb, counter := 0, runs := [] }
    { db := demoDb, counter := 0, runs := [] } h0 Reachable.refl).1⟩

end Sched
